import Mathlib

/-!
Verification development for the task/cancellation core and GPU compute engine
of the dathor-helpers repository.  Each definition is a shallow embedding of the
corresponding TypeScript source:

* TaskStatus, TaskState, taskResolve, taskReject  — the Task class of
  src/unnamed/part_008 (constructor resolve/reject callbacks and the
  Faulted/Canceled classification of rejection reasons);
* TokenState, signalCancel                        — CancellationToken of part_008;
* SchedulerState, addTask, removeTask, schedulerStart, schedulerPause,
  schedulerDelay                                  — TaskScheduler.ts;
* WorkerState, stepWorker                         — WorkerTask.ts (the version with
  the pending map keyed by id and token support);
* createGpuArgumentBuffer                         — createGpuArgumentBuffer.ts;
* runSinglePass / runMultiPass                    — executeGpuComputeSinglePass.ts and
  executeGpuComputeMultiPass (part_007), modelling the buffer lifecycle
  (create/destroy events) with explicit failure and cancellation points;
* parallelForModel                                — TaskFactory.parallelFor.

JavaScript numbers used as times/delays are modelled as Int; float values packed
by the argument-buffer builder are modelled as rationals (no arithmetic is
performed on them, they are only moved).  Exceptions are modelled with Except,
and an Error value is either an OperationCanceledError or a plain Error, which
is exactly the distinction the Task constructor uses to pick Canceled vs
Faulted.
-/

/-- Status enum of the Task class (part_008). -/
inductive TaskStatus where
  | Created
  | Running
  | Faulted
  | Canceled
  | RanToCompletion
deriving DecidableEq, Repr

/-- A rejection/throw reason: either an OperationCanceledError or a plain
Error, each carrying its message.  The Task constructor classifies a
rejection as Canceled exactly when the reason is an OperationCanceledError. -/
inductive JsErr where
  | canceledError (msg : String)
  | plainError (msg : String)
deriving DecidableEq, Repr

/-- The observable fields of a Task: currentStatus, resultValue, error
(part_008, class Task). -/
structure TaskState (T : Type) where
  currentStatus : TaskStatus
  resultValue : Option T
  error : Option JsErr
deriving DecidableEq, Repr

/-- State of a Task right after the constructor starts the executor: the
constructor sets currentStatus to Running before invoking the executor. -/
def taskInitial {T : Type} : TaskState T :=
  { currentStatus := TaskStatus.Running, resultValue := none, error := none }

/-- The resolve callback handed to the executor: stores the value and sets
RanToCompletion.  As in the source it is unguarded: it does not check whether
the task already settled. -/
def taskResolve {T : Type} (v : T) (s : TaskState T) : TaskState T :=
  { s with resultValue := some v, currentStatus := TaskStatus.RanToCompletion }

/-- The reject callback handed to the executor: stores the reason and sets
Canceled when the reason is an OperationCanceledError, Faulted otherwise.
Unguarded, exactly as in the source. -/
def taskReject {T : Type} (reason : JsErr) (s : TaskState T) : TaskState T :=
  { s with
    error := some reason
    currentStatus :=
      match reason with
      | JsErr.canceledError _ => TaskStatus.Canceled
      | JsErr.plainError _ => TaskStatus.Faulted }

/-- One call the executor makes into the Task: either resolve with a value or
reject with a reason. -/
inductive ExecutorCall (T : Type) where
  | resolveCall (v : T)
  | rejectCall (reason : JsErr)
deriving DecidableEq, Repr

/-- Apply a single executor call to the task state. -/
def applyCall {T : Type} (c : ExecutorCall T) (s : TaskState T) : TaskState T :=
  match c with
  | ExecutorCall.resolveCall v => taskResolve v s
  | ExecutorCall.rejectCall r => taskReject r s

/-- Apply a sequence of executor calls in order. -/
def applyCalls {T : Type} (cs : List (ExecutorCall T)) (s : TaskState T) : TaskState T :=
  cs.foldl (fun st c => applyCall c st) s

/-- The status a single call leaves behind (resolve gives RanToCompletion, a
cancellation-classified reject gives Canceled, any other reject gives
Faulted). -/
def callStatus {T : Type} (c : ExecutorCall T) : TaskStatus :=
  match c with
  | ExecutorCall.resolveCall _ => TaskStatus.RanToCompletion
  | ExecutorCall.rejectCall (JsErr.canceledError _) => TaskStatus.Canceled
  | ExecutorCall.rejectCall (JsErr.plainError _) => TaskStatus.Faulted

/-! ## CancellationToken (part_008) -/

/-- A registered cancellation callback, identified by cid; throws = true means
invoking it throws an exception. -/
structure CallbackSpec where
  cid : Nat
  throws : Bool
deriving DecidableEq, Repr

/-- Observable state of a CancellationToken: the monotone flag and the list of
registered callbacks. -/
structure TokenState where
  isCancellationRequested : Bool
  callbacks : List CallbackSpec
deriving DecidableEq, Repr

/-- Invoking one callback: models callback() which either returns or throws. -/
def invokeCallback (c : CallbackSpec) : Except String Unit :=
  if c.throws then Except.error ("callback " ++ toString c.cid ++ " threw")
  else Except.ok ()

/-- The forEach loop of CancellationToken._signalCancel: each callback is run
inside try/catch; a thrown exception is caught (and logged), the loop goes on.
Returns the list of invoked callback ids in order, and the list of caught
exception messages. -/
def runCallbacksCaught : List CallbackSpec → List Nat × List String
  | [] => ([], [])
  | c :: rest =>
      let caught : List String :=
        match invokeCallback c with
        | Except.error msg => [msg]
        | Except.ok _ => []
      let r := runCallbacksCaught rest
      (c.cid :: r.fst, caught ++ r.snd)

/-- CancellationToken._signalCancel: when the flag is not yet set, sets it,
runs every registered callback (each inside try/catch), then clears the
callback list; otherwise does nothing.  Returns the new token state, the ids
of invoked callbacks, and the caught exception messages.  The function is
total: a throwing callback never propagates out of it. -/
def signalCancel (s : TokenState) : TokenState × List Nat × List String :=
  if s.isCancellationRequested then (s, [], [])
  else
    let r := runCallbacksCaught s.callbacks
    ({ isCancellationRequested := true, callbacks := [] }, r.fst, r.snd)

/-- CancellationTokenSource.cancel iterated n times, accumulating invoked
callback ids across all calls. -/
def cancelIter : Nat → TokenState → TokenState × List Nat
  | 0, s => (s, [])
  | n + 1, s =>
      let r := signalCancel s
      let rest := cancelIter n r.fst
      (rest.fst, r.snd.fst ++ rest.snd)

/-! ## TaskScheduler (TaskScheduler.ts)

Times (performance.now values, delays, due times) are Int.  The
requestAnimationFrame handle is modelled as the constant some 0; only its
null/non-null distinction matters to the source.  The callback stored in a
queue entry is an opaque handle (Nat). -/

/-- A queued scheduler entry: { id, time, callback }. -/
structure SchedTask where
  id : Nat
  time : Int
  callback : Nat
deriving DecidableEq, Repr

/-- Observable state of the TaskScheduler. -/
structure SchedulerState where
  tasks : List SchedTask
  animationFrameId : Option Nat
  startTime : Option Int
  nextTaskId : Nat
  isPaused : Bool
  pauseStartTime : Option Int
  idleTime : Int
deriving DecidableEq, Repr

/-- The scheduler right after construction. -/
def schedulerInitial : SchedulerState :=
  { tasks := [], animationFrameId := none, startTime := none, nextTaskId := 0,
    isPaused := false, pauseStartTime := none, idleTime := 0 }

/-- Insert an entry into a list sorted by ascending time (stable: an inserted
entry goes after entries with the same time that precede it in the list).
Models this.tasks.sort((a, b) => a.time - b.time), which is a stable sort. -/
def insertByTime (t : SchedTask) : List SchedTask → List SchedTask
  | [] => [t]
  | u :: us => if t.time ≤ u.time then t :: u :: us else u :: insertByTime t us

/-- Stable sort by ascending time. -/
def sortByTime : List SchedTask → List SchedTask
  | [] => []
  | t :: ts => insertByTime t (sortByTime ts)

/-- JavaScript truthiness of this.pauseStartTime (null and 0 are falsy). -/
def truthyTime : Option Int → Bool
  | none => false
  | some v => v != 0

/-- TaskScheduler.stop: clears the frame handle and startTime, keeps the
queue. -/
def schedulerStop (s : SchedulerState) : SchedulerState :=
  if s.animationFrameId.isSome then
    { s with animationFrameId := none, startTime := none }
  else s

/-- TaskScheduler.start at instant now.  If the loop is already armed it does
nothing.  If resuming from a pause (isPaused and truthy pauseStartTime) it
adds the paused duration to idleTime, clears the pause fields, then shifts
every queued due time forward by the NEW CUMULATIVE idleTime and re-sorts.
Finally it arms the loop and sets startTime = now - idleTime. -/
def schedulerStart (s : SchedulerState) (now : Int) : SchedulerState :=
  if s.animationFrameId.isSome then s
  else
    let s1 :=
      if s.isPaused && truthyTime s.pauseStartTime then
        let idle := s.idleTime + (now - s.pauseStartTime.getD 0)
        { s with idleTime := idle, pauseStartTime := none, isPaused := false,
                 tasks := sortByTime (s.tasks.map (fun t => { t with time := t.time + idle })) }
      else s
    { s1 with startTime := some (now - s1.idleTime), animationFrameId := some 0 }

/-- TaskScheduler.pause at instant now: only acts when the loop is armed and
not already paused. -/
def schedulerPause (s : SchedulerState) (now : Int) : SchedulerState :=
  if s.animationFrameId.isSome && !s.isPaused then
    { s with animationFrameId := none, pauseStartTime := some now, isPaused := true }
  else s

/-- TaskScheduler.addTask at instant now: allocates the next id, pushes
{ id, time := delay + idleTime, callback } to the queue, sorts by time, and
calls start. -/
def addTask (s : SchedulerState) (cb : Nat) (delay : Int) (now : Int) :
    SchedulerState × Nat :=
  let taskId := s.nextTaskId
  let s1 := { s with
    nextTaskId := taskId + 1,
    tasks := sortByTime (s.tasks ++ [{ id := taskId, time := delay + s.idleTime, callback := cb }]) }
  (schedulerStart s1 now, taskId)

/-- Remove the first entry with the given id (Array.prototype.splice at the
found index). -/
def eraseById (tid : Nat) : List SchedTask → List SchedTask
  | [] => []
  | t :: ts => if t.id = tid then ts else t :: eraseById tid ts

/-- TaskScheduler.removeTask: removes the entry when present (stopping the
loop if the queue becomes empty) and reports whether it was found. -/
def removeTask (s : SchedulerState) (tid : Nat) : SchedulerState × Bool :=
  if s.tasks.any (fun t => t.id == tid) then
    let ts := eraseById tid s.tasks
    let s1 := { s with tasks := ts }
    (if ts.isEmpty then schedulerStop s1 else s1, true)
  else (s, false)

/-- The entries the drive loop fires on a tick with the given elapsed time:
the while loop shifts entries from the front of the (sorted) queue while the
front entry is due. -/
def firedEntries (s : SchedulerState) (elapsed : Int) : List SchedTask :=
  s.tasks.takeWhile (fun t => decide (t.time ≤ elapsed))

/-- The outcome of a TaskScheduler.delay call: the scheduler afterwards, the
returned Task (as settled so far), and the scheduler entry id when one was
registered. -/
structure DelayOutcome where
  sched : SchedulerState
  task : TaskState Unit
  entryId : Option Nat
deriving Repr

/-- TaskScheduler.delay(delay, token) at instant now.  tokenCancelled is the
token state at the call.  When the token is already cancelled the method
returns a Task rejected with new Error("Task was canceled.") — a PLAIN Error,
not an OperationCanceledError — and touches neither the queue nor the id
counter.  Otherwise it schedules an entry via addTask and registers a
cancellation callback; the Task stays Running until the entry fires or the
token cancels. -/
def schedulerDelay (s : SchedulerState) (delay : Int) (tokenCancelled : Bool)
    (now : Int) : DelayOutcome :=
  if tokenCancelled then
    { sched := s,
      task := taskReject (JsErr.plainError "Task was canceled.") taskInitial,
      entryId := none }
  else
    let p := addTask s 0 delay now
    { sched := p.fst, task := taskInitial, entryId := some p.snd }

/-- The cancellation callback delay registers on the token: removes the
scheduled entry from the queue and rejects the Task with a PLAIN
Error("Task was canceled."). -/
def delayCancelCallback (s : SchedulerState) (tid : Nat) (tsk : TaskState Unit) :
    SchedulerState × TaskState Unit :=
  ((removeTask s tid).fst, taskReject (JsErr.plainError "Task was canceled.") tsk)

/-- Scheduler well-formedness: every queued id was allocated earlier than the
counter.  Holds for schedulerInitial and is preserved by every operation. -/
def wfSched (s : SchedulerState) : Prop :=
  ∀ t ∈ s.tasks, t.id < s.nextTaskId

/-! ## WorkerTask (WorkerTask.ts, the pending-Map version with token support)

The pending Map is modelled by its key set as a list of ids (keys are unique
because ids are never reallocated); resolve/reject pairs act on TaskState
values defined below. -/

/-- Observable state of a WorkerTask: the id counter and the pending keys. -/
structure WorkerState where
  nextId : Nat
  pending : List Nat
deriving DecidableEq, Repr

/-- WorkerTask right after construction. -/
def workerInitial : WorkerState := { nextId := 0, pending := [] }

/-- Events that touch the pending table: a dispatchWorkerAction call (with the
token state at the call and whether worker.postMessage throws), an incoming
response message for an id (with or without an error field), and the
token-registered cancellation callback for an id. -/
inductive WorkerOp where
  | dispatchOp (tokenCancelled : Bool) (postFails : Bool)
  | responseOp (id : Nat) (isError : Bool)
  | cancelOp (id : Nat)
deriving DecidableEq, Repr

/-- One step of the WorkerTask state machine; returns the new state and the id
allocated by a dispatch, if any.

dispatchOp: an already-cancelled token rejects before allocating an id;
otherwise the id is this.nextId++ and the entry is set; a postMessage failure
deletes the entry again (rollback) and rejects.

responseOp: handleMessage looks the entry up, returns when absent, otherwise
deletes it (and resolves or rejects).

cancelOp: the callback registered on the token posts a cancel message and
rejects the Task — it does NOT delete the pending entry. -/
def stepWorker (w : WorkerState) : WorkerOp → WorkerState × Option Nat
  | WorkerOp.dispatchOp tokenCancelled postFails =>
      if tokenCancelled then (w, none)
      else
        let id := w.nextId
        let w1 : WorkerState := { nextId := id + 1, pending := w.pending ++ [id] }
        if postFails then
          ({ w1 with pending := w1.pending.filter (fun j => j != id) }, some id)
        else (w1, some id)
  | WorkerOp.responseOp id _ =>
      if w.pending.contains id then
        ({ w with pending := w.pending.filter (fun j => j != id) }, none)
      else (w, none)
  | WorkerOp.cancelOp _ => (w, none)

/-- The Task state produced synchronously by dispatchWorkerAction. -/
def dispatchTask (tokenCancelled postFails : Bool) : TaskState Nat :=
  if tokenCancelled then
    taskReject (JsErr.canceledError "Worker task was canceled before dispatch.") taskInitial
  else if postFails then
    taskReject (JsErr.plainError "Failed to post message to worker") taskInitial
  else taskInitial

/-- The Task rejection performed by the token-registered cancellation
callback (an OperationCanceledError). -/
def workerCancelTask (tsk : TaskState Nat) : TaskState Nat :=
  taskReject (JsErr.canceledError "Worker task was canceled.") tsk

/-- Run a sequence of worker operations, recording for every allocated id the
pending key set as it was just before the allocation. -/
def runWorker : WorkerState → List WorkerOp → WorkerState × List (Nat × List Nat)
  | w, [] => (w, [])
  | w, op :: ops =>
      let r := stepWorker w op
      let rest := runWorker r.fst ops
      (rest.fst,
        (match r.snd with
         | some id => [(id, w.pending)]
         | none => []) ++ rest.snd)

/-- Worker well-formedness: every pending id is below the counter. -/
def wfWorker (w : WorkerState) : Prop := ∀ i ∈ w.pending, i < w.nextId

/-! ## Argument-buffer packer (createGpuArgumentBuffer.ts)

Packed float values are rationals; no arithmetic is performed on them.  The
schema is the ordered list of fields (Object.entries iterates string keys in
insertion order). -/

/-- Field type descriptor (GpuArgType). -/
inductive GpuArgType where
  | int
  | uint
  | float
  | vec2
  | vec3
  | vec4
  | mat2
  | mat3
  | mat4
deriving DecidableEq, Repr

/-- The alignments table of createGpuArgumentBuffer, in bytes. -/
def alignmentBytes : GpuArgType → Nat
  | GpuArgType.int => 4
  | GpuArgType.uint => 4
  | GpuArgType.float => 4
  | GpuArgType.vec2 => 8
  | GpuArgType.vec3 => 16
  | GpuArgType.vec4 => 16
  | GpuArgType.mat2 => 16 * 2
  | GpuArgType.mat3 => 16 * 3
  | GpuArgType.mat4 => 16 * 4

/-- const alignFloats = align / 4 (exact for every table entry). -/
def alignFloats (t : GpuArgType) : Nat := alignmentBytes t / 4

/-- type.startsWith("mat") on the nine type names. -/
def isMatType : GpuArgType → Bool
  | GpuArgType.mat2 => true
  | GpuArgType.mat3 => true
  | GpuArgType.mat4 => true
  | _ => false

/-- A schema value: number | number[]. -/
inductive GpuArgValue where
  | scalar (v : ℚ)
  | arr (vs : List ℚ)
deriving DecidableEq, Repr

/-- const baseFloats = Array.isArray(value) ? value : [value]. -/
def baseFloats : GpuArgValue → List ℚ
  | GpuArgValue.scalar v => [v]
  | GpuArgValue.arr vs => vs

/-- One schema entry: [key, { type, value }]. -/
structure GpuArgField where
  name : String
  type : GpuArgType
  value : GpuArgValue
deriving DecidableEq, Repr

/-- while (offset % a !== 0) { tempBuffer.push(0); offset++; } — appends the
unique number of zeros that makes the length a multiple of a (offset and
tempBuffer.length move in lockstep in the source). -/
def padToMultiple (a : Nat) (buf : List ℚ) : List ℚ :=
  buf ++ List.replicate ((a - buf.length % a) % a) 0

/-- The loop body of createGpuArgumentBuffer for one field: align to the
field alignment, push the value floats, pad vec3 to a 4-float boundary, pad
matrices to a 4-float boundary. -/
def writeField (buf : List ℚ) (f : GpuArgField) : List ℚ :=
  let aligned := padToMultiple (alignFloats f.type) buf
  let withVal := aligned ++ baseFloats f.value
  let afterVec3 := if f.type = GpuArgType.vec3 then padToMultiple 4 withVal else withVal
  if isMatType f.type then padToMultiple 4 afterVec3 else afterVec3

/-- The tempBuffer after the whole schema walk. -/
def packFields (schema : List GpuArgField) : List ℚ :=
  schema.foldl writeField []

/-- createGpuArgumentBuffer: the packed floats, zero-extended to
Math.ceil(len*4/16)*16 bytes (the Float32Array of that size with
view.set(tempBuffer)). -/
def createGpuArgumentBuffer (schema : List GpuArgField) : List ℚ :=
  let tempBuffer := packFields schema
  let totalBytes := ((tempBuffer.length * 4 + 15) / 16) * 16
  tempBuffer ++ List.replicate (totalBytes / 4 - tempBuffer.length) 0

/-- The float offset at which field i's value starts: the packed length of the
preceding fields, padded up to field i's alignment. -/
def startOffset (schema : List GpuArgField) (i : Fin schema.length) : Nat :=
  (padToMultiple (alignFloats (schema.get i).type) (packFields (schema.take i))).length

/-! ## GPU compute executors (executeGpuComputeSinglePass.ts and part_007)

The executors are modelled as state transformers tracking the buffer
lifecycle: every device.createBuffer call allocates a fresh buffer id and logs
it in created; safeDestroy logs into destroyed (idempotently, as
safeDestroy tolerates repeated destruction).  The local mutable arrays the
source closes over in its try/finally (buffers in the single-pass executor;
createdBuffers, storageBuffers, paramsUniformBuffer, argumentBuffer,
readbackBuffer in the multi-pass executor) are part of the state so the
finally block sees their value at throw time.  Failure knobs of the
environment: WebGPU missing, adapter failure, the poll index from which the
token reports cancellation, mapAsync rejection, deserializer throw.
Operations with no effect on buffer lifecycle (shader compilation, pipeline
and bind-group construction, queue.writeBuffer, dispatch encoding, submission)
are omitted from the state. -/

/-- Environment of one executor invocation. -/
structure GpuEnv where
  gpuSupported : Bool
  adapterOk : Bool
  cancelFrom : Option Nat
  mapFails : Bool
  deserializerThrows : Bool
deriving DecidableEq, Repr

/-- The parts of a GpuComputeRequest the buffer lifecycle depends on. -/
structure GpuConfig where
  nInputs : Nat
  hasComputeParams : Bool
  hasArgumentData : Bool
  arrayLength : Nat
deriving DecidableEq, Repr

/-- Execution state: poll counter, buffer id allocator, global create/destroy
logs, and the local buffer variables of the two executors. -/
structure GpuRun where
  pollCount : Nat
  nextBuf : Nat
  created : List Nat
  destroyed : List Nat
  buffers : List Nat
  createdBuffers : List Nat
  storageBuffers : List Nat
  paramsUniformBuffer : Option Nat
  argumentBuffer : Option Nat
  readbackBuffer : Option Nat
deriving DecidableEq, Repr

/-- State at the head of an executor invocation. -/
def gpuRunInitial : GpuRun :=
  { pollCount := 0, nextBuf := 0, created := [], destroyed := [], buffers := [],
    createdBuffers := [], storageBuffers := [], paramsUniformBuffer := none,
    argumentBuffer := none, readbackBuffer := none }

/-- An executor computation: threads the run state and may throw. -/
def GpuM (α : Type) : Type := GpuRun → Except JsErr α × GpuRun

def gpuPure {α : Type} (a : α) : GpuM α := fun s => (Except.ok a, s)

def gpuBind {α β : Type} (m : GpuM α) (f : α → GpuM β) : GpuM β := fun s =>
  match m s with
  | (Except.ok a, s1) => f a s1
  | (Except.error e, s1) => (Except.error e, s1)

instance : Monad GpuM where
  pure := gpuPure
  bind := gpuBind

/-- throw: an uncaught JavaScript exception. -/
def gpuThrow {α : Type} (e : JsErr) : GpuM α := fun s => (Except.error e, s)

/-- Whether the token reports cancellation at the k-th poll (cancellation is
monotone: once requested it stays requested). -/
def cancelObserved (env : GpuEnv) (k : Nat) : Bool :=
  match env.cancelFrom with
  | none => false
  | some c => decide (c ≤ k)

/-- config.token?.throwIfCancellationRequested(): throws an
OperationCanceledError when the token reports cancellation. -/
def pollCancellation (env : GpuEnv) : GpuM Unit := fun s =>
  let k := s.pollCount
  let s1 := { s with pollCount := k + 1 }
  if cancelObserved env k then
    (Except.error (JsErr.canceledError "The operation was canceled."), s1)
  else (Except.ok (), s1)

/-- safeDestroy on a buffer: records it as destroyed (tolerates repeats). -/
def destroyPure (b : Nat) (s : GpuRun) : GpuRun :=
  if s.destroyed.contains b then s else { s with destroyed := s.destroyed ++ [b] }

/-- forEach(safeDestroy) over a list of buffers. -/
def destroyList (bs : List Nat) (s : GpuRun) : GpuRun :=
  bs.foldl (fun st b => destroyPure b st) s

def safeDestroyB (b : Nat) : GpuM Unit := fun s => (Except.ok (), destroyPure b s)

/-- device.createBuffer in the single-pass executor: every creation is
immediately followed by buffers.push(buf). -/
def createBufferS : GpuM Nat := fun s =>
  (Except.ok s.nextBuf,
   { s with nextBuf := s.nextBuf + 1, created := s.created ++ [s.nextBuf],
            buffers := s.buffers ++ [s.nextBuf] })

/-- The input-upload loop of the single-pass executor. -/
def createInputBuffersS : Nat → GpuM Unit
  | 0 => gpuPure ()
  | n + 1 => gpuBind createBufferS (fun _ => createInputBuffersS n)

/-- buffers.filter(b => b !== readbackBuffer).forEach(safeDestroy): the early
destruction right after the copy is enqueued. -/
def earlyDestroyExceptS (rb : Nat) : GpuM Unit := fun s =>
  (Except.ok (), destroyList (s.buffers.filter (fun b => b != rb)) s)

/-- The try/finally of the single-pass executor: the finally block destroys
every buffer in the local buffers array, whatever the body did. -/
def withCleanupS {α : Type} (body : GpuM α) : GpuM α := fun s =>
  let r := body s
  (r.fst, destroyList r.snd.buffers r.snd)

/-- Common prelude of both executors: initial cancellation poll, WebGPU
presence check, adapter acquisition and check, second poll, device
acquisition (modelled as succeeding). -/
def acquireDevice (env : GpuEnv) : GpuM Unit :=
  gpuBind (pollCancellation env) (fun _ =>
  gpuBind (if !env.gpuSupported then gpuThrow (JsErr.plainError "WebGPU is not supported.")
           else gpuPure ()) (fun _ =>
  gpuBind (if !env.adapterOk then gpuThrow (JsErr.plainError "Failed to get GPU adapter.")
           else gpuPure ()) (fun _ =>
  pollCancellation env)))

/-- Body of the single-pass executor (the try block): upload the inputs,
allocate the output storage buffer, the optional computeParams and
argumentData uniform buffers, poll, build the pipeline and dispatch (no
buffer effects), allocate the readback buffer, enqueue the copy and submit,
destroy everything except the readback buffer, await mapAsync, poll, read and
unmap, destroy the readback buffer, run the deserializer. -/
def runSinglePassBody (env : GpuEnv) (cfg : GpuConfig) : GpuM Unit :=
  gpuBind (createInputBuffersS cfg.nInputs) (fun _ =>
  gpuBind createBufferS (fun _outputBuffer =>
  gpuBind (if cfg.hasComputeParams then gpuBind createBufferS (fun _ => gpuPure ())
           else gpuPure ()) (fun _ =>
  gpuBind (if cfg.hasArgumentData then gpuBind createBufferS (fun _ => gpuPure ())
           else gpuPure ()) (fun _ =>
  gpuBind (pollCancellation env) (fun _ =>
  gpuBind createBufferS (fun readbackBuffer =>
  gpuBind (earlyDestroyExceptS readbackBuffer) (fun _ =>
  gpuBind (if env.mapFails then gpuThrow (JsErr.plainError "mapAsync rejected")
           else gpuPure ()) (fun _ =>
  gpuBind (pollCancellation env) (fun _ =>
  gpuBind (safeDestroyB readbackBuffer) (fun _ =>
  (if env.deserializerThrows then gpuThrow (JsErr.plainError "deserializer threw")
   else gpuPure ())))))))))))

/-- executeGpuComputeSinglePass. -/
def runSinglePass (env : GpuEnv) (cfg : GpuConfig) : GpuM Unit :=
  gpuBind (acquireDevice env) (fun _ => withCleanupS (runSinglePassBody env cfg))

/-- Fuel-bounded binary logarithm (floor); with fuel at least n this computes
the floor of log2 n. -/
def log2Fuel : Nat → Nat → Nat
  | 0, _ => 0
  | fuel + 1, n => if n ≥ 2 then log2Fuel fuel (n / 2) + 1 else 0

/-- Floor of the binary logarithm (Math.floor(Math.log2 n)). -/
def natLog2 (n : Nat) : Nat := log2Fuel n n

/-- Models Number.isInteger(Math.log2(N)) for a natural N (exact for every
practically reachable array length). -/
def log2IsInteger (n : Nat) : Bool := n != 0 && 2 ^ natLog2 n == n

/-- Input-buffer creation in the multi-pass executor: each buffer goes into
createdBuffers and storageBuffers. -/
def createInputM : GpuM Unit := fun s =>
  (Except.ok (),
   { s with nextBuf := s.nextBuf + 1, created := s.created ++ [s.nextBuf],
            createdBuffers := s.createdBuffers ++ [s.nextBuf],
            storageBuffers := s.storageBuffers ++ [s.nextBuf] })

def createInputBuffersM : Nat → GpuM Unit
  | 0 => gpuPure ()
  | n + 1 => gpuBind createInputM (fun _ => createInputBuffersM n)

/-- The parameter uniform buffer (always created); goes into createdBuffers. -/
def createParamsM : GpuM Unit := fun s =>
  (Except.ok (),
   { s with nextBuf := s.nextBuf + 1, created := s.created ++ [s.nextBuf],
            createdBuffers := s.createdBuffers ++ [s.nextBuf],
            paramsUniformBuffer := some s.nextBuf })

/-- The optional argumentData uniform buffer; goes into createdBuffers. -/
def createArgumentM : GpuM Unit := fun s =>
  (Except.ok (),
   { s with nextBuf := s.nextBuf + 1, created := s.created ++ [s.nextBuf],
            createdBuffers := s.createdBuffers ++ [s.nextBuf],
            argumentBuffer := some s.nextBuf })

/-- The readback buffer of the multi-pass executor.  Mirroring the source, it
is NOT pushed into createdBuffers (unlike every other buffer): only
readbackBuffer references it. -/
def createReadbackM : GpuM Unit := fun s =>
  (Except.ok (),
   { s with nextBuf := s.nextBuf + 1, created := s.created ++ [s.nextBuf],
            readbackBuffer := some s.nextBuf })

/-- storageBuffers.forEach(safeDestroy); storageBuffers.length = 0. -/
def destroyStorageM : GpuM Unit := fun s =>
  (Except.ok (), { destroyList s.storageBuffers s with storageBuffers := [] })

/-- safeDestroy(paramsUniformBuffer) — null-safe. -/
def destroyParamsM : GpuM Unit := fun s =>
  (Except.ok (), match s.paramsUniformBuffer with
                 | some b => destroyPure b s
                 | none => s)

/-- safeDestroy(argumentBuffer) — null-safe. -/
def destroyArgumentM : GpuM Unit := fun s =>
  (Except.ok (), match s.argumentBuffer with
                 | some b => destroyPure b s
                 | none => s)

/-- safeDestroy(readbackBuffer) — null-safe. -/
def destroyReadbackM : GpuM Unit := fun s =>
  (Except.ok (), match s.readbackBuffer with
                  | some b => destroyPure b s
                  | none => s)

/-- The inner loop over step = stage..1: each iteration polls the token,
rewrites the parameter uniform (no buffer-lifecycle effect) and encodes and
submits one compute pass. -/
def runPassSteps (env : GpuEnv) : Nat → GpuM Unit
  | 0 => gpuPure ()
  | k + 1 => gpuBind (pollCancellation env) (fun _ => runPassSteps env k)

/-- The outer loop over stage = 1..log2N (stage s performs s steps). -/
def runPassStages (env : GpuEnv) : Nat → GpuM Unit
  | 0 => gpuPure ()
  | st + 1 => gpuBind (runPassStages env st) (fun _ => runPassSteps env (st + 1))

/-- The try/finally of the multi-pass executor: the finally block destroys
every buffer in createdBuffers — and only those. -/
def withCleanupM {α : Type} (body : GpuM α) : GpuM α := fun s =>
  let r := body s
  (r.fst, destroyList r.snd.createdBuffers r.snd)

/-- Body of the multi-pass executor (the try block): power-of-two check first
(before any buffer creation), then input upload, parameter uniform, optional
argument uniform, the pass loop (with one poll per pass), readback buffer
creation, copy submission, early destruction of the storage buffers, mapAsync
await, poll, unmap, explicit destruction of the uniform/argument/readback
buffers, deserialization. -/
def runMultiPassBody (env : GpuEnv) (cfg : GpuConfig) : GpuM Unit :=
  gpuBind (if !(log2IsInteger cfg.arrayLength) then
             gpuThrow (JsErr.plainError
               "Array length must be a power of two for multi-pass algorithms.")
           else gpuPure ()) (fun _ =>
  gpuBind (createInputBuffersM cfg.nInputs) (fun _ =>
  gpuBind createParamsM (fun _ =>
  gpuBind (if cfg.hasArgumentData then createArgumentM else gpuPure ()) (fun _ =>
  gpuBind (runPassStages env (natLog2 cfg.arrayLength)) (fun _ =>
  gpuBind createReadbackM (fun _ =>
  gpuBind destroyStorageM (fun _ =>
  gpuBind (if env.mapFails then gpuThrow (JsErr.plainError "mapAsync rejected")
           else gpuPure ()) (fun _ =>
  gpuBind (pollCancellation env) (fun _ =>
  gpuBind destroyParamsM (fun _ =>
  gpuBind destroyArgumentM (fun _ =>
  gpuBind destroyReadbackM (fun _ =>
  (if env.deserializerThrows then gpuThrow (JsErr.plainError "deserializer threw")
   else gpuPure ())))))))))))))

/-- executeGpuComputeMultiPass: common prelude, the inputs-nonempty check,
then the try/finally around the body. -/
def runMultiPass (env : GpuEnv) (cfg : GpuConfig) : GpuM Unit :=
  gpuBind (acquireDevice env) (fun _ =>
  gpuBind (if cfg.nInputs = 0 then
             gpuThrow (JsErr.plainError "MultiPass compute requires at least one input buffer.")
           else gpuPure ()) (fun _ =>
  withCleanupM (runMultiPassBody env cfg)))

/-! ## TaskFactory.parallelFor (TaskFactory.ts)

The body is a function from the index to what it returns (a Task with a known
eventual outcome, undefined, or a non-Task non-undefined value).  The token is
described by the iteration-boundary index from which the loop checks observe
cancellation (cancellation is monotone) and by its state when the join
settles.  Promise.all is modelled as settling the joined tasks in launch
order. -/

/-- What body(i) returns: a Task (with its eventual outcome), undefined, or a
non-Task non-undefined value (wrapped by the source into an already-completed
Task). -/
inductive BodyResult where
  | retVoid
  | retTask (outcome : Except JsErr Unit)
  | retOther
deriving Repr

/-- The token as parallelFor observes it. -/
structure PFToken where
  cancelFromIter : Option Nat
  cancelAtFinal : Bool
deriving DecidableEq, Repr

/-- Whether the check before the k-th body call observes cancellation. -/
def pfObserved (tok : PFToken) (k : Nat) : Bool :=
  match tok.cancelFromIter with
  | none => false
  | some c => decide (c ≤ k)

/-- What one body call contributes to the join set (tasks are collected; a
non-Task non-undefined result contributes an already-completed Task; undefined
contributes nothing). -/
def pfCollect : BodyResult → List (Except JsErr Unit)
  | BodyResult.retVoid => []
  | BodyResult.retTask o => [o]
  | BodyResult.retOther => [Except.ok ()]

/-- The launch loop: starting at offset k with the given fuel (remaining
iterations), checks the token before each body call and breaks on observed
cancellation; returns the invoked indices in order and the collected join
set. -/
def pfLoop (body : Int → BodyResult) (tok : PFToken) (lo : Int) :
    Nat → Nat → List Int × List (Except JsErr Unit)
  | 0, _ => ([], [])
  | fuel + 1, k =>
      if pfObserved tok k then ([], [])
      else
        let r := body (lo + (k : Int))
        let rest := pfLoop body tok lo fuel (k + 1)
        ((lo + (k : Int)) :: rest.fst, pfCollect r ++ rest.snd)

/-- Promise.all over the join set (settlement in launch order): the first
rejection, if any. -/
def pfFirstError (outs : List (Except JsErr Unit)) : Option JsErr :=
  outs.findSome? (fun o => match o with
    | Except.error e => some e
    | Except.ok _ => none)

/-- The number of iterations the loop launches before breaking. -/
def pfLaunchCount (n : Nat) (tok : PFToken) : Nat :=
  match tok.cancelFromIter with
  | none => n
  | some c => min c n

/-- TaskFactory.parallelFor over [lo, hi): the immediate-cancellation check,
the launch loop, then the join: a whenAll rejection is forwarded as-is by
.catch(reject); on whenAll success the token is checked once more and an
OperationCanceledError is rejected if it is cancelled, else the Task
resolves.  Returns the invoked indices and the settled Task. -/
def parallelForModel (lo hi : Int) (body : Int → BodyResult) (tok : PFToken) :
    List Int × TaskState Unit :=
  if pfObserved tok 0 then
    ([], taskReject (JsErr.canceledError "Parallel.For canceled immediately.") taskInitial)
  else
    let run := pfLoop body tok lo (hi - lo).toNat 0
    let final :=
      match pfFirstError run.snd with
      | some e => taskReject e taskInitial
      | none =>
          if tok.cancelAtFinal then
            taskReject
              (JsErr.canceledError "Parallel.For completed, but was canceled during execution.")
              taskInitial
          else taskResolve () taskInitial
    (run.fst, final)

/-- The multi-pass environment and request of the C1 failing input: a valid
power-of-two request (arrayLength 2, one input) whose token reports
cancellation at poll index 3 — the poll right after mapAsync resolves. -/
def envC1 : GpuEnv :=
  { gpuSupported := true, adapterOk := true, cancelFrom := some 3,
    mapFails := false, deserializerThrows := false }

def cfgC1 : GpuConfig :=
  { nInputs := 1, hasComputeParams := false, hasArgumentData := false, arrayLength := 2 }

/-- The healthy environment and the arrayLength-100 request used as the C3
witness input. -/
def envC3 : GpuEnv :=
  { gpuSupported := true, adapterOk := true, cancelFrom := none,
    mapFails := false, deserializerThrows := false }

def cfgC3 : GpuConfig :=
  { nInputs := 1, hasComputeParams := false, hasArgumentData := false, arrayLength := 100 }

/-! ## parallelFor lemmas for C7 -/

def pfCutoffAux : Option Nat → Nat → Nat → Nat
  | none, _, fuel => fuel
  | some c, k, fuel => min (c - k) fuel

/-- The schema of testable property 4 of the spec (a vec3 followed by a
float), and the same schema under different field names, used as the C6
witness input. -/
def schemaC6 : List GpuArgField :=
  [{ name := "a", type := GpuArgType.vec3, value := GpuArgValue.arr [1, 2, 3] },
   { name := "b", type := GpuArgType.float, value := GpuArgValue.scalar 4 }]

def schemaC6renamed : List GpuArgField :=
  [{ name := "x", type := GpuArgType.vec3, value := GpuArgValue.arr [1, 2, 3] },
   { name := "y", type := GpuArgType.float, value := GpuArgValue.scalar 4 }]

/-- A computation keeps created and the single-pass buffers array in
lockstep: it appends the same fresh ids to both. -/
def BufLockstep {α : Type} (m : GpuM α) : Prop :=
  ∀ s : GpuRun, ∃ d : List Nat,
    (m s).snd.created = s.created ++ d ∧ (m s).snd.buffers = s.buffers ++ d

theorem runCallbacksCaught_fst (cbs : List CallbackSpec) :
    (runCallbacksCaught cbs).fst = cbs.map (fun c => c.cid) := by
  induction cbs with
  | nil => rfl
  | cons c rest ih => simp [runCallbacksCaught, ih]

theorem runCallbacksCaught_snd (cbs : List CallbackSpec) :
    (runCallbacksCaught cbs).snd =
      (cbs.filter (fun c => c.throws)).map (fun c => "callback " ++ toString c.cid ++ " threw") := by
  induction cbs with
  | nil => rfl
  | cons c rest ih =>
      cases h : c.throws <;>
        simp [runCallbacksCaught, invokeCallback, h, ih, List.filter_cons]

theorem mem_insertByTime {t u : SchedTask} {l : List SchedTask} :
    u ∈ insertByTime t l ↔ u = t ∨ u ∈ l := by
  induction l with
  | nil => simp [insertByTime]
  | cons v vs ih =>
      by_cases h : t.time ≤ v.time <;> simp [insertByTime, h, ih] <;> tauto

theorem mem_sortByTime {u : SchedTask} {l : List SchedTask} :
    u ∈ sortByTime l ↔ u ∈ l := by
  induction l with
  | nil => simp [sortByTime]
  | cons v vs ih => simp [sortByTime, mem_insertByTime, ih]

theorem mem_eraseById {tid : Nat} {u : SchedTask} :
    ∀ {l : List SchedTask}, u ∈ eraseById tid l → u ∈ l := by
  intro l
  induction l with
  | nil => intro h; simp [eraseById] at h
  | cons v vs ih =>
      intro h
      by_cases hv : v.id = tid
      · simp only [eraseById, if_pos hv] at h
        exact List.mem_cons_of_mem _ h
      · simp only [eraseById, if_neg hv] at h
        rcases List.mem_cons.mp h with h | h
        · exact h ▸ List.mem_cons_self _ _
        · exact List.mem_cons_of_mem _ (ih h)

/-- Removing an id from a list in which it occurs at most once leaves no entry
with that id. -/
theorem eraseById_no_id {tid : Nat} :
    ∀ {l : List SchedTask}, l.countP (fun t => t.id == tid) ≤ 1 →
      ∀ u ∈ eraseById tid l, u.id ≠ tid := by
  intro l
  induction l with
  | nil => intro _ u hu; simp [eraseById] at hu
  | cons v vs ih =>
      intro h u hu
      by_cases hv : v.id = tid
      · simp only [eraseById, if_pos hv] at hu
        have hc0 : vs.countP (fun t => t.id == tid) = 0 := by
          rw [List.countP_cons] at h
          have : (if (v.id == tid) = true then 1 else 0) = 1 := by simp [hv]
          omega
        intro hc
        have hmem : u ∈ vs.filter (fun t => t.id == tid) :=
          List.mem_filter.mpr ⟨hu, by simp [hc]⟩
        rw [List.countP_eq_length_filter, List.length_eq_zero] at hc0
        simp [hc0] at hmem
      · simp only [eraseById, if_neg hv] at hu
        rcases List.mem_cons.mp hu with hu | hu
        · subst hu; exact hv
        · have h' : vs.countP (fun t => t.id == tid) ≤ 1 := by
            rw [List.countP_cons] at h
            omega
          exact ih h' u hu

theorem gpuBind_def {α β : Type} (m : GpuM α) (f : α → GpuM β) :
    m >>= f = gpuBind m f := rfl

theorem gpuPure_def {α : Type} (a : α) : (pure a : GpuM α) = gpuPure a := rfl

/-! ## Claim theorems -/

/-- C4 counterexample: an executor that calls resolve and then reject does
NOT leave the Task in RanToCompletion — the unguarded reject callback
overwrites the status, leaving the Task Faulted (while recording the
rejection reason), contradicting the claim that a terminal status never
changes. -/
theorem c4_resolve_then_reject :
    (applyCalls [ExecutorCall.resolveCall (0 : Nat),
                 ExecutorCall.rejectCall (JsErr.plainError "boom")] taskInitial).currentStatus
        = TaskStatus.Faulted
    ∧ (applyCalls [ExecutorCall.resolveCall (0 : Nat),
                 ExecutorCall.rejectCall (JsErr.plainError "boom")] taskInitial).currentStatus
        ≠ TaskStatus.RanToCompletion := by
  exact ⟨rfl, by decide⟩

/-- C4 (amended): the Task status field is NOT frozen at the first terminal
transition; each resolve/reject call overwrites it unconditionally, so after
any sequence of executor calls the status is the one induced by the last call
(resolve gives RanToCompletion, reject with an OperationCanceledError gives
Canceled, any other reject gives Faulted).  In particular resolve followed by
reject leaves the Task Faulted, not RanToCompletion. -/
theorem c4_status_last_call {T : Type} (s : TaskState T)
    (cs : List (ExecutorCall T)) (c : ExecutorCall T) :
    (applyCalls (cs ++ [c]) s).currentStatus = callStatus c := by
  unfold applyCalls
  rw [List.foldl_append]
  cases c with
  | resolveCall v => rfl
  | rejectCall r => cases r <;> rfl

/-- C8: for every list of callbacks registered before cancellation, calling
cancel any positive number of times invokes each registered callback exactly
once in total (in registration order); after the first call the token is
cancelled with a cleared callback list, and every further call leaves the
state unchanged and invokes nothing. -/
theorem c8_cancel_idempotent (cbs : List CallbackSpec) (n : Nat) :
    cancelIter (n + 1) { isCancellationRequested := false, callbacks := cbs }
      = ({ isCancellationRequested := true, callbacks := [] },
         cbs.map (fun c => c.cid)) := by
  have hstop : ∀ m : Nat,
      cancelIter m { isCancellationRequested := true, callbacks := ([] : List CallbackSpec) }
        = ({ isCancellationRequested := true, callbacks := [] }, ([] : List Nat)) := by
    intro m
    induction m with
    | zero => rfl
    | succ k ih => simp [cancelIter, signalCancel, ih]
  simp [cancelIter, signalCancel, runCallbacksCaught_fst, hstop]

/-- C10: when some registered callbacks throw during cancellation, the
try/catch inside _signalCancel contains each exception: every callback still
runs exactly once in registration order, the thrown exceptions are caught
(and only logged), isCancellationRequested becomes true, the callback list is
cleared, and a later signal finds the flag set and does nothing — cancel
never propagates a callback exception (signalCancel returns normally on every
input, with the caught messages as data). -/
theorem c10_throwing_callback_contained (cbs : List CallbackSpec) :
    (signalCancel { isCancellationRequested := false, callbacks := cbs }).snd.fst
        = cbs.map (fun c => c.cid)
    ∧ (signalCancel { isCancellationRequested := false, callbacks := cbs }).fst.isCancellationRequested
        = true
    ∧ (signalCancel { isCancellationRequested := false, callbacks := cbs }).fst.callbacks = []
    ∧ (signalCancel { isCancellationRequested := false, callbacks := cbs }).snd.snd
        = (cbs.filter (fun c => c.throws)).map
            (fun c => "callback " ++ toString c.cid ++ " threw")
    ∧ signalCancel (signalCancel { isCancellationRequested := false, callbacks := cbs }).fst
        = ((signalCancel { isCancellationRequested := false, callbacks := cbs }).fst, [], []) := by
  refine ⟨?_, ?_, ?_, ?_, ?_⟩ <;>
    simp [signalCancel, runCallbacksCaught_fst, runCallbacksCaught_snd]

/-- C2 counterexample: delay on an already-cancelled token rejects with a
plain Error("Task was canceled."), which the Task constructor classifies as
Faulted — the returned Task is NOT in the Canceled status the claim
requires. -/
theorem c2_already_cancelled_not_canceled :
    (schedulerDelay schedulerInitial 100 true 0).task.currentStatus = TaskStatus.Faulted
    ∧ (schedulerDelay schedulerInitial 100 true 0).task.currentStatus ≠ TaskStatus.Canceled
    ∧ (schedulerDelay schedulerInitial 100 true 0).task.error
        = some (JsErr.plainError "Task was canceled.") := by
  exact ⟨rfl, by decide, rfl⟩

/-- C9 counterexample: a concrete second pause/resume pair.  One entry is
scheduled with delay 100; the scheduler is paused at t=10 and resumed at t=15
(the entry moves 100 to 105, matching the pause duration 5 because no idle
time had accumulated yet), then paused at t=20 and resumed at t=30.  start()
adds exactly that pause duration (10) to idleTime (5 to 15) but shifts the
entry by the cumulative idleTime 15, to due time 120 — not by the pause
duration 10, which would give 115 as the claim requires. -/
theorem c9_second_pause_shift :
    (schedulerStart (schedulerPause
        (schedulerStart (schedulerPause (addTask schedulerInitial 7 100 0).fst 10) 15)
        20) 30).idleTime = 15
    ∧ (schedulerStart (schedulerPause
        (schedulerStart (schedulerPause (addTask schedulerInitial 7 100 0).fst 10) 15)
        20) 30).tasks = [{ id := 0, time := 120, callback := 7 }]
    ∧ (schedulerStart (schedulerPause
        (schedulerStart (schedulerPause (addTask schedulerInitial 7 100 0).fst 10) 15)
        20) 30).tasks ≠ [{ id := 0, time := 115, callback := 7 }] := by
  exact ⟨rfl, rfl, by decide⟩

/-- C5 counterexample: after a dispatch allocates id 0, running the explicit
token-cancellation callback rejects the Task as Canceled but does NOT remove
the pending entry — id 0 is still in the pending table, contradicting the
claim that explicit cancellation removes the entry. -/
theorem c5_cancel_leaves_pending :
    (runWorker workerInitial
        [WorkerOp.dispatchOp false false, WorkerOp.cancelOp 0]).fst.pending = [0]
    ∧ (workerCancelTask (dispatchTask false false)).currentStatus = TaskStatus.Canceled := by
  exact ⟨rfl, rfl⟩

/-- C1 (code bug, evaluated at the failing input): in the multi-pass executor
the readback buffer (id 2) is created but never pushed into createdBuffers,
so when cancellation is observed at the poll after mapAsync the finally-block
cleanup destroys only the input (0) and parameter (1) buffers — the
invocation settles as canceled with the readback buffer still live, violating
the no-leak invariant.  (The single-pass executor pushes its readback buffer
into the cleanup list; see singlePass_no_buffer_leak.) -/
theorem c1_multiPass_readback_leak :
    (runMultiPass envC1 cfgC1 gpuRunInitial).fst
        = Except.error (JsErr.canceledError "The operation was canceled.")
    ∧ (runMultiPass envC1 cfgC1 gpuRunInitial).snd.created = [0, 1, 2]
    ∧ (runMultiPass envC1 cfgC1 gpuRunInitial).snd.destroyed = [0, 1]
    ∧ (runMultiPass envC1 cfgC1 gpuRunInitial).snd.readbackBuffer = some 2
    ∧ 2 ∈ (runMultiPass envC1 cfgC1 gpuRunInitial).snd.created
    ∧ 2 ∉ (runMultiPass envC1 cfgC1 gpuRunInitial).snd.destroyed := by
  refine ⟨rfl, rfl, rfl, rfl, by decide, by decide⟩

/-- C7 counterexample: over [0, 2) the body at index 0 returns a Task that
eventually faults with "boom" and the body at index 1 returns a succeeding
Task; the token is cancelled while the iterations run (observed from
iteration boundary 2, cancelled when the join settles).  Cancellation was
requested, yet the returned Task settles Faulted with the iteration's
failure, not with a cancellation cause — the whenAll rejection is forwarded
by .catch(reject) before the token is ever re-checked. -/
theorem c7_fault_wins_over_cancel :
    (parallelForModel 0 2
        (fun i => if i = 0 then BodyResult.retTask (Except.error (JsErr.plainError "boom"))
                  else BodyResult.retTask (Except.ok ()))
        { cancelFromIter := some 2, cancelAtFinal := true }).snd.currentStatus
        = TaskStatus.Faulted
    ∧ (parallelForModel 0 2
        (fun i => if i = 0 then BodyResult.retTask (Except.error (JsErr.plainError "boom"))
                  else BodyResult.retTask (Except.ok ()))
        { cancelFromIter := some 2, cancelAtFinal := true }).snd.currentStatus
        ≠ TaskStatus.Canceled
    ∧ (parallelForModel 0 2
        (fun i => if i = 0 then BodyResult.retTask (Except.error (JsErr.plainError "boom"))
                  else BodyResult.retTask (Except.ok ()))
        { cancelFromIter := some 2, cancelAtFinal := true }).snd.error
        = some (JsErr.plainError "boom") := by
  refine ⟨rfl, by decide, rfl⟩

/-! ## Scheduler lemmas for C2 and C9 -/

theorem insertByTime_perm (t : SchedTask) (l : List SchedTask) :
    (insertByTime t l).Perm (t :: l) := by
  induction l with
  | nil => simp [insertByTime]
  | cons u us ih =>
      by_cases h : t.time ≤ u.time
      · simp [insertByTime, h]
      · simp only [insertByTime, if_neg h]
        exact (ih.cons u).trans (List.Perm.swap t u us)

theorem sortByTime_perm (l : List SchedTask) : (sortByTime l).Perm l := by
  induction l with
  | nil => simp [sortByTime]
  | cons t ts ih => exact (insertByTime_perm t (sortByTime ts)).trans (ih.cons t)

theorem countP_sortByTime (p : SchedTask → Bool) (l : List SchedTask) :
    (sortByTime l).countP p = l.countP p :=
  (sortByTime_perm l).countP_eq p

theorem schedulerStop_tasks (s : SchedulerState) : (schedulerStop s).tasks = s.tasks := by
  unfold schedulerStop
  split <;> rfl

theorem countId_map_shift (l : List SchedTask) (d : Int) (tid : Nat) :
    ((l.map (fun t => { t with time := t.time + d })).countP (fun t => t.id == tid))
      = l.countP (fun t => t.id == tid) := by
  rw [List.countP_map]
  rfl

theorem countId_schedulerStart (s : SchedulerState) (now : Int) (tid : Nat) :
    ((schedulerStart s now).tasks.countP (fun t => t.id == tid))
      = s.tasks.countP (fun t => t.id == tid) := by
  unfold schedulerStart
  by_cases h1 : s.animationFrameId.isSome
  · simp [h1]
  · by_cases h2 : (s.isPaused && truthyTime s.pauseStartTime) = true
    · simp only [h1, h2, Bool.false_eq_true, if_false, if_true]
      rw [countP_sortByTime, countId_map_shift]
    · simp only [h1, h2, Bool.false_eq_true, if_false]

theorem mem_takeWhile_mem {α : Type} {p : α → Bool} {u : α} :
    ∀ {l : List α}, u ∈ l.takeWhile p → u ∈ l := by
  intro l
  induction l with
  | nil => intro h; simp [List.takeWhile] at h
  | cons v vs ih =>
      intro h
      rw [List.takeWhile_cons] at h
      by_cases hv : p v = true
      · rw [if_pos hv] at h
        rcases List.mem_cons.mp h with h | h
        · exact h ▸ List.mem_cons_self _ _
        · exact List.mem_cons_of_mem _ (ih h)
      · rw [if_neg hv] at h
        simp at h

theorem mem_firedEntries {s : SchedulerState} {elapsed : Int} {u : SchedTask}
    (h : u ∈ firedEntries s elapsed) : u ∈ s.tasks := by
  unfold firedEntries at h
  exact mem_takeWhile_mem h

/-- C2 (amended): delay on an already-cancelled token schedules nothing and
returns a Task immediately rejected with the plain Error "Task was canceled."
— so it settles Faulted, not Canceled; and when the token cancels after
scheduling, the registered callback removes the pending entry (which
therefore never fires on any later tick) and rejects the Task with the same
plain Error, again Faulted rather than Canceled. -/
theorem c2_delay_amended (s : SchedulerState) (ms now : Int) (hwf : wfSched s) :
    ((schedulerDelay s ms true now).sched = s
      ∧ (schedulerDelay s ms true now).entryId = none
      ∧ (schedulerDelay s ms true now).task.currentStatus = TaskStatus.Faulted
      ∧ (schedulerDelay s ms true now).task.error
          = some (JsErr.plainError "Task was canceled."))
    ∧ ((schedulerDelay s ms false now).entryId = some s.nextTaskId
      ∧ (∀ u ∈ (delayCancelCallback (schedulerDelay s ms false now).sched s.nextTaskId
            (schedulerDelay s ms false now).task).fst.tasks, u.id ≠ s.nextTaskId)
      ∧ (∀ elapsed : Int, ∀ u ∈ firedEntries
            (delayCancelCallback (schedulerDelay s ms false now).sched s.nextTaskId
              (schedulerDelay s ms false now).task).fst elapsed, u.id ≠ s.nextTaskId)
      ∧ (delayCancelCallback (schedulerDelay s ms false now).sched s.nextTaskId
            (schedulerDelay s ms false now).task).snd.currentStatus = TaskStatus.Faulted
      ∧ (delayCancelCallback (schedulerDelay s ms false now).sched s.nextTaskId
            (schedulerDelay s ms false now).task).snd.error
          = some (JsErr.plainError "Task was canceled.")) := by
  have hcount : ((schedulerDelay s ms false now).sched.tasks.countP
      (fun t => t.id == s.nextTaskId)) = 1 := by
    show (((addTask s 0 ms now).fst).tasks.countP (fun t => t.id == s.nextTaskId)) = 1
    unfold addTask
    rw [countId_schedulerStart, countP_sortByTime, List.countP_append]
    have h0 : s.tasks.countP (fun t => t.id == s.nextTaskId) = 0 := by
      rw [List.countP_eq_zero]
      intro u hu
      have := hwf u hu
      simp only [beq_iff_eq]
      omega
    simp [h0]
  have hremoved : ∀ u ∈ (delayCancelCallback (schedulerDelay s ms false now).sched
      s.nextTaskId (schedulerDelay s ms false now).task).fst.tasks, u.id ≠ s.nextTaskId := by
    intro u hu
    have hany : ((schedulerDelay s ms false now).sched.tasks.any
        (fun t => t.id == s.nextTaskId)) = true := by
      have hpos : 0 < ((schedulerDelay s ms false now).sched.tasks.countP
          (fun t => t.id == s.nextTaskId)) := by omega
      rcases List.countP_pos.mp hpos with ⟨a, ha, hpa⟩
      exact List.any_eq_true.mpr ⟨a, ha, hpa⟩
    have htasks : (delayCancelCallback (schedulerDelay s ms false now).sched
        s.nextTaskId (schedulerDelay s ms false now).task).fst.tasks
        = eraseById s.nextTaskId (schedulerDelay s ms false now).sched.tasks := by
      unfold delayCancelCallback removeTask
      rw [if_pos hany]
      by_cases hemp : (eraseById s.nextTaskId (schedulerDelay s ms false now).sched.tasks).isEmpty
      · simp only [hemp, if_true, schedulerStop_tasks]
      · simp only [hemp, Bool.false_eq_true, if_false]
    rw [htasks] at hu
    exact eraseById_no_id (by omega) u hu
  refine ⟨⟨rfl, rfl, rfl, rfl⟩, ?_, hremoved, ?_, rfl, rfl⟩
  · rfl
  · intro elapsed u hu
    exact hremoved u (mem_firedEntries hu)

/-- C2 amended witness: the empty scheduler, delay 100, token interactions at
time 0. -/
theorem c2_delay_amended_witness :
    wfSched schedulerInitial
    ∧ (((schedulerDelay schedulerInitial 100 true 0).sched = schedulerInitial
      ∧ (schedulerDelay schedulerInitial 100 true 0).entryId = none
      ∧ (schedulerDelay schedulerInitial 100 true 0).task.currentStatus = TaskStatus.Faulted
      ∧ (schedulerDelay schedulerInitial 100 true 0).task.error
          = some (JsErr.plainError "Task was canceled."))
    ∧ ((schedulerDelay schedulerInitial 100 false 0).entryId = some schedulerInitial.nextTaskId
      ∧ (∀ u ∈ (delayCancelCallback (schedulerDelay schedulerInitial 100 false 0).sched
            schedulerInitial.nextTaskId
            (schedulerDelay schedulerInitial 100 false 0).task).fst.tasks,
            u.id ≠ schedulerInitial.nextTaskId)
      ∧ (∀ elapsed : Int, ∀ u ∈ firedEntries
            (delayCancelCallback (schedulerDelay schedulerInitial 100 false 0).sched
              schedulerInitial.nextTaskId
              (schedulerDelay schedulerInitial 100 false 0).task).fst elapsed,
            u.id ≠ schedulerInitial.nextTaskId)
      ∧ (delayCancelCallback (schedulerDelay schedulerInitial 100 false 0).sched
            schedulerInitial.nextTaskId
            (schedulerDelay schedulerInitial 100 false 0).task).snd.currentStatus
          = TaskStatus.Faulted
      ∧ (delayCancelCallback (schedulerDelay schedulerInitial 100 false 0).sched
            schedulerInitial.nextTaskId
            (schedulerDelay schedulerInitial 100 false 0).task).snd.error
          = some (JsErr.plainError "Task was canceled."))) := by
  have hwf : wfSched schedulerInitial := by
    intro t ht
    simp [schedulerInitial] at ht
  exact ⟨hwf, c2_delay_amended schedulerInitial 100 0 hwf⟩

/-- C9 (amended): start() after a pause adds exactly the duration of that
pause to the accumulated idle time, but shifts every queued entry forward by
the resulting TOTAL accumulated idle time (previous idle time plus this
pause), not by the pause duration alone — the two agree only when no idle
time had accumulated before the pause. -/
theorem c9_pause_resume_amended (s : SchedulerState) (now1 now2 : Int)
    (harmed : s.animationFrameId.isSome = true) (hnp : s.isPaused = false)
    (h0 : now1 ≠ 0) :
    (schedulerStart (schedulerPause s now1) now2).idleTime
        = s.idleTime + (now2 - now1)
    ∧ (schedulerStart (schedulerPause s now1) now2).tasks
        = sortByTime (s.tasks.map
            (fun t => { t with time := t.time + (s.idleTime + (now2 - now1)) }))
    ∧ (∀ t ∈ s.tasks, ∃ u ∈ (schedulerStart (schedulerPause s now1) now2).tasks,
        u.id = t.id ∧ u.callback = t.callback
        ∧ u.time = t.time + (s.idleTime + (now2 - now1)))
    ∧ (schedulerStart (schedulerPause s now1) now2).isPaused = false
    ∧ (schedulerStart (schedulerPause s now1) now2).animationFrameId = some 0 := by
  have hp : schedulerPause s now1
      = { s with animationFrameId := none, pauseStartTime := some now1, isPaused := true } := by
    unfold schedulerPause
    rw [if_pos]
    simp [harmed, hnp]
  have hr : schedulerStart (schedulerPause s now1) now2
      = { s with
            idleTime := s.idleTime + (now2 - now1),
            pauseStartTime := none,
            isPaused := false,
            tasks := sortByTime (s.tasks.map
              (fun t => { t with time := t.time + (s.idleTime + (now2 - now1)) })),
            startTime := some (now2 - (s.idleTime + (now2 - now1))),
            animationFrameId := some 0 } := by
    rw [hp]
    unfold schedulerStart
    rw [if_neg (by simp)]
    have htr : truthyTime (some now1) = true := by
      simp [truthyTime, h0]
    simp [htr]
  refine ⟨by rw [hr], by rw [hr], ?_, by rw [hr], by rw [hr]⟩
  intro t ht
  refine ⟨{ t with time := t.time + (s.idleTime + (now2 - now1)) }, ?_, rfl, rfl, rfl⟩
  rw [hr]
  exact mem_sortByTime.mpr (List.mem_map_of_mem _ ht)

/-- C9 amended witness: one queued entry, pause at t=10, resume at t=15. -/
theorem c9_pause_resume_amended_witness :
    ((addTask schedulerInitial 7 100 0).fst.animationFrameId.isSome = true
      ∧ (addTask schedulerInitial 7 100 0).fst.isPaused = false ∧ (10 : Int) ≠ 0)
    ∧ ((schedulerStart (schedulerPause (addTask schedulerInitial 7 100 0).fst 10) 15).idleTime
        = (addTask schedulerInitial 7 100 0).fst.idleTime + (15 - 10)
    ∧ (schedulerStart (schedulerPause (addTask schedulerInitial 7 100 0).fst 10) 15).tasks
        = sortByTime ((addTask schedulerInitial 7 100 0).fst.tasks.map
            (fun t => { t with
              time := t.time + ((addTask schedulerInitial 7 100 0).fst.idleTime + (15 - 10)) }))
    ∧ (∀ t ∈ (addTask schedulerInitial 7 100 0).fst.tasks,
        ∃ u ∈ (schedulerStart (schedulerPause (addTask schedulerInitial 7 100 0).fst 10) 15).tasks,
        u.id = t.id ∧ u.callback = t.callback
        ∧ u.time = t.time + ((addTask schedulerInitial 7 100 0).fst.idleTime + (15 - 10)))
    ∧ (schedulerStart (schedulerPause (addTask schedulerInitial 7 100 0).fst 10) 15).isPaused
        = false
    ∧ (schedulerStart (schedulerPause (addTask schedulerInitial 7 100 0).fst 10) 15).animationFrameId
        = some 0) := by
  exact ⟨⟨rfl, rfl, by decide⟩,
    c9_pause_resume_amended (addTask schedulerInitial 7 100 0).fst 10 15 rfl rfl (by decide)⟩

/-! ## Worker lemmas for C5 -/

theorem filter_ne_contains_false (l : List Nat) (id : Nat) :
    ((l.filter (fun j => j != id)).contains id) = false := by
  induction l with
  | nil => rfl
  | cons x xs ih =>
      by_cases hx : x = id
      · simp [List.filter_cons, hx, ih]
      · simp only [List.filter_cons]
        have : (x != id) = true := by simp [hx]
        simp [this, List.contains_cons, ih]
        omega

theorem stepWorker_dispatch_eq (w : WorkerState) (tc pf : Bool) :
    stepWorker w (WorkerOp.dispatchOp tc pf)
      = if tc then (w, none)
        else if pf then
          ({ nextId := w.nextId + 1,
             pending := (w.pending ++ [w.nextId]).filter (fun j => j != w.nextId) },
           some w.nextId)
        else ({ nextId := w.nextId + 1, pending := w.pending ++ [w.nextId] }, some w.nextId) := by
  cases tc <;> cases pf <;> rfl

theorem stepWorker_response_eq (w : WorkerState) (id : Nat) (e : Bool) :
    stepWorker w (WorkerOp.responseOp id e)
      = if w.pending.contains id
        then ({ w with pending := w.pending.filter (fun j => j != id) }, none)
        else (w, none) := rfl

theorem stepWorker_cancel_eq (w : WorkerState) (id : Nat) :
    stepWorker w (WorkerOp.cancelOp id) = (w, none) := rfl

theorem stepWorker_wf {w : WorkerState} (op : WorkerOp) (hwf : wfWorker w) :
    wfWorker (stepWorker w op).fst := by
  cases op with
  | dispatchOp tc pf =>
      rw [stepWorker_dispatch_eq]
      cases tc with
      | true => simpa using hwf
      | false =>
          cases pf with
          | true =>
              simp only [Bool.false_eq_true, if_false, if_true]
              intro i hi
              have hi' := List.mem_of_mem_filter hi
              show i < w.nextId + 1
              rcases List.mem_append.mp hi' with h | h
              · have := hwf i h
                omega
              · simp at h
                omega
          | false =>
              simp only [Bool.false_eq_true, if_false]
              intro i hi
              show i < w.nextId + 1
              rcases List.mem_append.mp hi with h | h
              · have := hwf i h
                omega
              · simp at h
                omega
  | responseOp id e =>
      rw [stepWorker_response_eq]
      by_cases hc : (w.pending.contains id) = true
      · rw [if_pos hc]
        intro i hi
        exact hwf i (List.mem_of_mem_filter hi)
      · rw [if_neg hc]
        exact hwf
  | cancelOp id =>
      rw [stepWorker_cancel_eq]
      exact hwf

theorem stepWorker_nextId_mono (w : WorkerState) (op : WorkerOp) :
    w.nextId ≤ (stepWorker w op).fst.nextId := by
  cases op with
  | dispatchOp tc pf =>
      rw [stepWorker_dispatch_eq]
      cases tc with
      | true => simp
      | false => cases pf <;> simp
  | responseOp id e =>
      rw [stepWorker_response_eq]
      by_cases hc : (w.pending.contains id) = true
      · rw [if_pos hc]
      · rw [if_neg hc]
  | cancelOp id => rw [stepWorker_cancel_eq]

theorem stepWorker_alloc {w : WorkerState} {op : WorkerOp} {id : Nat}
    (h : (stepWorker w op).snd = some id) :
    id = w.nextId ∧ (stepWorker w op).fst.nextId = w.nextId + 1 := by
  cases op with
  | dispatchOp tc pf =>
      rw [stepWorker_dispatch_eq] at h ⊢
      cases tc with
      | true => simp at h
      | false =>
          cases pf with
          | true =>
              simp only [Bool.false_eq_true, if_false, if_true] at h ⊢
              simp at h
              exact ⟨h.symm, trivial⟩
          | false =>
              simp only [Bool.false_eq_true, if_false] at h ⊢
              simp at h
              exact ⟨h.symm, trivial⟩
  | responseOp id2 e =>
      rw [stepWorker_response_eq] at h
      by_cases hc : (w.pending.contains id2) = true
      · rw [if_pos hc] at h
        simp at h
      · rw [if_neg hc] at h
        simp at h
  | cancelOp id2 =>
      rw [stepWorker_cancel_eq] at h
      simp at h

theorem runWorker_alloc_props : ∀ (ops : List WorkerOp) (w : WorkerState),
    wfWorker w →
      (∀ r ∈ (runWorker w ops).snd, w.nextId ≤ r.fst ∧ r.fst ∉ r.snd)
      ∧ List.Pairwise (· < ·) ((runWorker w ops).snd.map Prod.fst)
      ∧ w.nextId ≤ (runWorker w ops).fst.nextId := by
  intro ops
  induction ops with
  | nil =>
      intro w hwf
      exact ⟨by intro r hr; simp [runWorker] at hr, by simp [runWorker], le_refl _⟩
  | cons op rest ih =>
      intro w hwf
      have hwf1 : wfWorker (stepWorker w op).fst := stepWorker_wf op hwf
      obtain ⟨ihmem, ihpw, ihmono⟩ := ih (stepWorker w op).fst hwf1
      have hmono1 : w.nextId ≤ (stepWorker w op).fst.nextId := stepWorker_nextId_mono w op
      have hrun : runWorker w (op :: rest)
          = ((runWorker (stepWorker w op).fst rest).fst,
             (match (stepWorker w op).snd with
              | some id => [(id, w.pending)]
              | none => []) ++ (runWorker (stepWorker w op).fst rest).snd) := rfl
      rcases hs : (stepWorker w op).snd with _ | id
      · rw [hrun, hs]
        refine ⟨?_, by simpa using ihpw, le_trans hmono1 ihmono⟩
        intro r hr
        simp only [List.nil_append] at hr
        have := ihmem r hr
        exact ⟨le_trans hmono1 this.1, this.2⟩
      · obtain ⟨hid, hnext⟩ := stepWorker_alloc hs
        rw [hrun, hs]
        refine ⟨?_, ?_, ?_⟩
        rotate_left 2
        · show w.nextId ≤ (runWorker (stepWorker w op).fst rest).fst.nextId
          omega
        · intro r hr
          simp only [List.singleton_append] at hr
          rcases List.mem_cons.mp hr with hr | hr
          · subst hr
            refine ⟨le_of_eq hid.symm, ?_⟩
            intro hmem
            have := hwf id hmem
            omega
          · have := ihmem r hr
            exact ⟨by omega, this.2⟩
        · simp only [List.singleton_append, List.map_cons]
          rw [List.pairwise_cons]
          refine ⟨?_, ihpw⟩
          intro b hb
          rcases List.mem_map.mp hb with ⟨r, hr, hrb⟩
          have := (ihmem r hr).1
          omega

/-- C5 (amended): request ids are strictly increasing across dispatches and an
id is never pending at the moment it is allocated; a response (with result or
with error) removes the pending entry, and a repeated response for the same
id is a no-op, so removal happens exactly once; a postMessage failure rolls
the fresh entry back; but the explicit token-cancellation callback does NOT
remove the pending entry — it only rejects the Task (as Canceled) and posts a
cancel message, leaving the entry for a later response or worker error. -/
theorem c5_pending_lifecycle_amended :
    (∀ ops : List WorkerOp,
        List.Pairwise (· < ·) ((runWorker workerInitial ops).snd.map Prod.fst)
        ∧ ∀ r ∈ (runWorker workerInitial ops).snd, r.fst ∉ r.snd)
    ∧ (∀ (w : WorkerState) (id : Nat),
        (stepWorker w (WorkerOp.cancelOp id)).fst = w
        ∧ (workerCancelTask (dispatchTask false false)).currentStatus = TaskStatus.Canceled)
    ∧ (∀ (w : WorkerState) (id : Nat) (e : Bool),
        ((stepWorker w (WorkerOp.responseOp id e)).fst.pending.contains id) = false
        ∧ stepWorker (stepWorker w (WorkerOp.responseOp id e)).fst (WorkerOp.responseOp id e)
            = ((stepWorker w (WorkerOp.responseOp id e)).fst, none))
    ∧ (∀ w : WorkerState,
        ((stepWorker w (WorkerOp.dispatchOp false true)).fst.pending.contains w.nextId)
          = false) := by
  have hwf0 : wfWorker workerInitial := by
    intro i hi
    simp [workerInitial] at hi
  refine ⟨?_, ?_, ?_, ?_⟩
  · intro ops
    obtain ⟨hmem, hpw, _⟩ := runWorker_alloc_props ops workerInitial hwf0
    exact ⟨hpw, fun r hr => (hmem r hr).2⟩
  · intro w id
    exact ⟨rfl, rfl⟩
  · intro w id e
    have hcontains : ((stepWorker w (WorkerOp.responseOp id e)).fst.pending.contains id)
        = false := by
      rw [stepWorker_response_eq]
      by_cases hc : (w.pending.contains id) = true
      · rw [if_pos hc]
        exact filter_ne_contains_false w.pending id
      · rw [if_neg hc]
        simpa using hc
    refine ⟨hcontains, ?_⟩
    rw [stepWorker_response_eq _ id e, if_neg (by simpa using hcontains)]
  · intro w
    rw [stepWorker_dispatch_eq]
    simp only [Bool.false_eq_true, if_false, if_true]
    exact filter_ne_contains_false _ _

/-- C5 amended witness: a concrete run (dispatch, response, dispatch) plus the
no-removal cancellation step and the response idempotence at id 0. -/
theorem c5_pending_lifecycle_amended_witness :
    (List.Pairwise (· < ·)
        ((runWorker workerInitial
          [WorkerOp.dispatchOp false false, WorkerOp.responseOp 0 false,
           WorkerOp.dispatchOp false false]).snd.map Prod.fst)
      ∧ ∀ r ∈ (runWorker workerInitial
          [WorkerOp.dispatchOp false false, WorkerOp.responseOp 0 false,
           WorkerOp.dispatchOp false false]).snd, r.fst ∉ r.snd)
    ∧ ((stepWorker { nextId := 1, pending := [0] } (WorkerOp.cancelOp 0)).fst
        = { nextId := 1, pending := [0] }
      ∧ (workerCancelTask (dispatchTask false false)).currentStatus = TaskStatus.Canceled)
    ∧ (((stepWorker { nextId := 1, pending := [0] } (WorkerOp.responseOp 0 true)).fst.pending.contains 0)
        = false
      ∧ stepWorker (stepWorker { nextId := 1, pending := [0] } (WorkerOp.responseOp 0 true)).fst
          (WorkerOp.responseOp 0 true)
        = ((stepWorker { nextId := 1, pending := [0] } (WorkerOp.responseOp 0 true)).fst, none))
    ∧ ((stepWorker { nextId := 5, pending := [] } (WorkerOp.dispatchOp false true)).fst.pending.contains 5)
        = false :=
  ⟨c5_pending_lifecycle_amended.1 _, c5_pending_lifecycle_amended.2.1 _ 0,
    c5_pending_lifecycle_amended.2.2.1 _ 0 true,
    c5_pending_lifecycle_amended.2.2.2 { nextId := 5, pending := [] }⟩

/-! ## Executor unfolding lemmas for C3 and C1 -/

theorem gpuBind_apply {α β : Type} (m : GpuM α) (f : α → GpuM β) (s : GpuRun) :
    gpuBind m f s
      = match m s with
        | (Except.ok a, s1) => f a s1
        | (Except.error e, s1) => (Except.error e, s1) := rfl

theorem acquireDevice_run (env : GpuEnv) (s : GpuRun) :
    acquireDevice env s =
      (if cancelObserved env s.pollCount then
        (Except.error (JsErr.canceledError "The operation was canceled."),
         { s with pollCount := s.pollCount + 1 })
       else if env.gpuSupported = false then
        (Except.error (JsErr.plainError "WebGPU is not supported."),
         { s with pollCount := s.pollCount + 1 })
       else if env.adapterOk = false then
        (Except.error (JsErr.plainError "Failed to get GPU adapter."),
         { s with pollCount := s.pollCount + 1 })
       else if cancelObserved env (s.pollCount + 1) then
        (Except.error (JsErr.canceledError "The operation was canceled."),
         { s with pollCount := s.pollCount + 1 + 1 })
       else (Except.ok (), { s with pollCount := s.pollCount + 1 + 1 })) := by
  by_cases h1 : cancelObserved env s.pollCount <;>
    by_cases h2 : env.gpuSupported <;>
      by_cases h3 : env.adapterOk <;>
        by_cases h4 : cancelObserved env (s.pollCount + 1) <;>
          simp [acquireDevice, gpuBind_def, gpuBind, gpuPure_def, gpuPure, gpuThrow,
            pollCancellation, h1, h2, h3, h4]

theorem acquireDevice_cases (env : GpuEnv) (s : GpuRun) :
    (∃ e k, acquireDevice env s = (Except.error e, { s with pollCount := k }))
    ∨ (∃ k, acquireDevice env s = (Except.ok (), { s with pollCount := k })) := by
  rw [acquireDevice_run]
  by_cases h1 : cancelObserved env s.pollCount
  · exact Or.inl ⟨_, _, by rw [if_pos h1]⟩
  · by_cases h2 : env.gpuSupported = false
    · exact Or.inl ⟨_, _, by rw [if_neg h1, if_pos h2]⟩
    · by_cases h3 : env.adapterOk = false
      · exact Or.inl ⟨_, _, by rw [if_neg h1, if_neg h2, if_pos h3]⟩
      · by_cases h4 : cancelObserved env (s.pollCount + 1)
        · exact Or.inl ⟨_, _, by rw [if_neg h1, if_neg h2, if_neg h3, if_pos h4]⟩
        · exact Or.inr ⟨_, by rw [if_neg h1, if_neg h2, if_neg h3, if_neg h4]⟩

theorem runMultiPass_eq (env : GpuEnv) (cfg : GpuConfig) :
    runMultiPass env cfg
      = gpuBind (acquireDevice env) (fun _ =>
          gpuBind (if cfg.nInputs = 0 then
              gpuThrow (JsErr.plainError "MultiPass compute requires at least one input buffer.")
            else gpuPure ())
            (fun _ => withCleanupM (runMultiPassBody env cfg))) := rfl

theorem runMultiPassBody_not_pow2 (env : GpuEnv) (cfg : GpuConfig)
    (h : log2IsInteger cfg.arrayLength = false) (s : GpuRun) :
    runMultiPassBody env cfg s
      = (Except.error (JsErr.plainError
          "Array length must be a power of two for multi-pass algorithms."), s) := by
  unfold runMultiPassBody
  simp [gpuBind_def, gpuBind, gpuThrow, h]

/-- C3: a multi-pass request whose arrayLength fails the power-of-two check
always settles with an error and creates no device buffer at all — and in an
otherwise healthy environment (WebGPU present, adapter found, no
cancellation, at least one input) the error is exactly the explicit
power-of-two message; the length is never rounded or truncated. -/
theorem c3_multiPass_pow2_guard (env : GpuEnv) (cfg : GpuConfig)
    (h : log2IsInteger cfg.arrayLength = false) :
    (∃ e, (runMultiPass env cfg gpuRunInitial).fst = Except.error e)
    ∧ (runMultiPass env cfg gpuRunInitial).snd.created = []
    ∧ (env.gpuSupported = true → env.adapterOk = true →
        cancelObserved env 0 = false → cancelObserved env 1 = false →
        cfg.nInputs ≠ 0 →
        (runMultiPass env cfg gpuRunInitial).fst
          = Except.error (JsErr.plainError
              "Array length must be a power of two for multi-pass algorithms.")) := by
  have hbody := runMultiPassBody_not_pow2 env cfg h
  have hmain : (∃ e, (runMultiPass env cfg gpuRunInitial).fst = Except.error e)
      ∧ (runMultiPass env cfg gpuRunInitial).snd.created = [] := by
    rcases acquireDevice_cases env gpuRunInitial with ⟨e, k, heq⟩ | ⟨k, heq⟩
    · have : runMultiPass env cfg gpuRunInitial
          = (Except.error e, { gpuRunInitial with pollCount := k }) := by
        rw [runMultiPass_eq, gpuBind_apply, heq]
      rw [this]
      exact ⟨⟨e, rfl⟩, rfl⟩
    · by_cases hn : cfg.nInputs = 0
      · have : runMultiPass env cfg gpuRunInitial
            = (Except.error (JsErr.plainError
                "MultiPass compute requires at least one input buffer."),
               { gpuRunInitial with pollCount := k }) := by
          rw [runMultiPass_eq, gpuBind_apply, heq]
          simp only [gpuBind_apply, hn, if_pos, gpuThrow]
        rw [this]
        exact ⟨⟨_, rfl⟩, rfl⟩
      · have : runMultiPass env cfg gpuRunInitial
            = (Except.error (JsErr.plainError
                "Array length must be a power of two for multi-pass algorithms."),
               { gpuRunInitial with pollCount := k }) := by
          rw [runMultiPass_eq, gpuBind_apply, heq]
          simp only [hn, if_neg, ite_false, gpuBind_apply, gpuPure]
          rw [withCleanupM, hbody]
          rfl
        rw [this]
        exact ⟨⟨_, rfl⟩, rfl⟩
  refine ⟨hmain.1, hmain.2, ?_⟩
  intro hg ha hc0 hc1 hn
  have heq2 : acquireDevice env gpuRunInitial
      = (Except.ok (), { gpuRunInitial with pollCount := 2 }) := by
    rw [acquireDevice_run]
    have : gpuRunInitial.pollCount = 0 := rfl
    rw [this]
    simp [hc0, hc1, hg, ha]
  rw [runMultiPass_eq, gpuBind_apply, heq2]
  simp only [hn, if_neg, ite_false, gpuBind_apply, gpuPure]
  rw [withCleanupM, hbody]

/-- C3 witness: arrayLength = 100 (not a power of two) with one input in a
healthy environment. -/
theorem c3_multiPass_pow2_guard_witness :
    log2IsInteger cfgC3.arrayLength = false
    ∧ ((∃ e, (runMultiPass envC3 cfgC3 gpuRunInitial).fst = Except.error e)
    ∧ (runMultiPass envC3 cfgC3 gpuRunInitial).snd.created = []
    ∧ (envC3.gpuSupported = true → envC3.adapterOk = true →
        cancelObserved envC3 0 = false → cancelObserved envC3 1 = false →
        cfgC3.nInputs ≠ 0 →
        (runMultiPass envC3 cfgC3 gpuRunInitial).fst
          = Except.error (JsErr.plainError
              "Array length must be a power of two for multi-pass algorithms."))) :=
  ⟨by decide, c3_multiPass_pow2_guard envC3 cfgC3 (by decide)⟩

theorem pfLoop_fst (body : Int → BodyResult) (tok : PFToken) (lo : Int) :
    ∀ (fuel k : Nat),
      (pfLoop body tok lo fuel k).fst
        = (List.range (pfCutoffAux tok.cancelFromIter k fuel)).map
            (fun j => lo + ((k + j : Nat) : Int)) := by
  intro fuel
  induction fuel with
  | zero =>
      intro k
      cases h : tok.cancelFromIter <;> simp [pfLoop, pfCutoffAux]
  | succ fuel ih =>
      intro k
      by_cases hobs : pfObserved tok k = true
      · rcases hcf : tok.cancelFromIter with _ | c
        · rw [pfObserved, hcf] at hobs
          simp at hobs
        · rw [pfObserved, hcf] at hobs
          have hc : c ≤ k := by simpa using hobs
          have h0 : c - k = 0 := by omega
          simp [pfLoop, pfObserved, hcf, hc, pfCutoffAux, h0]
      · have hobs2 : pfObserved tok k = false := by simpa using hobs
        simp only [pfLoop, hobs2, Bool.false_eq_true, if_false]
        rw [ih (k + 1)]
        have hfun : ∀ m : Nat,
            (List.range m).map (fun j => lo + ((k + 1 + j : Nat) : Int))
              = (List.range m).map ((fun j => lo + ((k + j : Nat) : Int)) ∘ Nat.succ) := by
          intro m
          refine congrArg (fun f => (List.range m).map f) ?_
          funext j
          show lo + ((k + 1 + j : Nat) : Int) = lo + ((k + Nat.succ j : Nat) : Int)
          exact congrArg (fun n : Nat => lo + (n : Int)) (by omega)
        rcases hcf : tok.cancelFromIter with _ | c
        · simp only [hcf, pfCutoffAux]
          rw [List.range_succ_eq_map, List.map_cons, List.map_map, hfun fuel]
          exact congrArg₂ List.cons (by simp) rfl
        · rw [pfObserved, hcf] at hobs2
          have hck : k < c := by
            by_contra hle
            simp at hobs2
            omega
          simp only [hcf, pfCutoffAux]
          have hmin : min (c - k) (fuel + 1) = min (c - (k + 1)) fuel + 1 := by omega
          rw [hmin, List.range_succ_eq_map, List.map_cons, List.map_map,
            hfun (min (c - (k + 1)) fuel)]
          exact congrArg₂ List.cons (by simp) rfl

/-- C7 (amended): parallelFor invokes the body synchronously in index order
over [lo, hi), stops launching at the first iteration boundary where
cancellation is observed (launching everything when the token never
cancels), and the settled result is: Canceled when the token was cancelled at
the call; Canceled when every launched task succeeded but the token was
cancelled by the time the join settled; RanToCompletion when every launched
task succeeded and no cancellation was requested; but Faulted with the first
launched failure when a launched task failed — even if cancellation was also
requested, since the whenAll rejection reaches .catch(reject) before the
token is re-checked. -/
theorem c7_parallelFor_amended (lo hi : Int) (body : Int → BodyResult) (tok : PFToken) :
    (parallelForModel lo hi body tok).fst
        = (List.range (pfLaunchCount (hi - lo).toNat tok)).map (fun k => lo + ((k : Nat) : Int))
    ∧ pfLaunchCount (hi - lo).toNat tok ≤ (hi - lo).toNat
    ∧ (tok.cancelFromIter = none →
        pfLaunchCount (hi - lo).toNat tok = (hi - lo).toNat)
    ∧ (pfObserved tok 0 = true →
        (parallelForModel lo hi body tok).snd.currentStatus = TaskStatus.Canceled)
    ∧ (pfObserved tok 0 = false →
        (pfFirstError (pfLoop body tok lo (hi - lo).toNat 0).snd = none →
          (tok.cancelAtFinal = true →
            (parallelForModel lo hi body tok).snd.currentStatus = TaskStatus.Canceled)
          ∧ (tok.cancelAtFinal = false →
            (parallelForModel lo hi body tok).snd.currentStatus = TaskStatus.RanToCompletion))
        ∧ (∀ msg : String, pfFirstError (pfLoop body tok lo (hi - lo).toNat 0).snd
              = some (JsErr.plainError msg) →
            (parallelForModel lo hi body tok).snd.currentStatus = TaskStatus.Faulted
            ∧ (parallelForModel lo hi body tok).snd.error
                = some (JsErr.plainError msg))) := by
  refine ⟨?_, ?_, ?_, ?_, ?_⟩
  · by_cases hobs : pfObserved tok 0 = true
    · rcases hcf : tok.cancelFromIter with _ | c
      · rw [pfObserved, hcf] at hobs
        simp at hobs
      · rw [pfObserved, hcf] at hobs
        have hc : c = 0 := by simpa using hobs
        simp [parallelForModel, pfObserved, hcf, pfLaunchCount, hc]
    · have hobs' : pfObserved tok 0 = false := by simpa using hobs
      simp only [parallelForModel, hobs', Bool.false_eq_true, if_false]
      rw [pfLoop_fst]
      rcases hcf : tok.cancelFromIter with _ | c <;>
        simp [pfLaunchCount, pfCutoffAux, hcf]
  · unfold pfLaunchCount
    rcases tok.cancelFromIter with _ | c
    · exact le_refl _
    · exact min_le_right _ _
  · intro h
    rw [pfLaunchCount, h]
  · intro hobs
    simp [parallelForModel, hobs, taskReject, taskInitial]
  · intro hobs
    constructor
    · intro hnone
      constructor
      · intro hfin
        simp [parallelForModel, hobs, hnone, hfin, taskReject, taskInitial]
      · intro hfin
        simp [parallelForModel, hobs, hnone, hfin, taskResolve, taskInitial]
    · intro msg hsome
      simp [parallelForModel, hobs, hsome, taskReject, taskInitial]

/-- C7 amended witness: three void-returning iterations over [0, 3) with a
token observed as cancelled only after the loop (boundary 5) and cancelled by
join time. -/
theorem c7_parallelFor_amended_witness :
    pfObserved { cancelFromIter := some 5, cancelAtFinal := true } 0 = false
    ∧ pfFirstError (pfLoop (fun _ => BodyResult.retVoid)
        { cancelFromIter := some 5, cancelAtFinal := true } 0 ((3 - 0 : Int)).toNat 0).snd = none
    ∧ (parallelForModel 0 3 (fun _ => BodyResult.retVoid)
        { cancelFromIter := some 5, cancelAtFinal := true }).snd.currentStatus
        = TaskStatus.Canceled
    ∧ (parallelForModel 0 3 (fun _ => BodyResult.retVoid)
        { cancelFromIter := some 5, cancelAtFinal := true }).fst
        = (List.range (pfLaunchCount ((3 - 0 : Int)).toNat
            { cancelFromIter := some 5, cancelAtFinal := true })).map
            (fun k => (0 : Int) + ((k : Nat) : Int)) := by
  have h := c7_parallelFor_amended 0 3 (fun _ => BodyResult.retVoid)
    { cancelFromIter := some 5, cancelAtFinal := true }
  exact ⟨by decide, by decide,
    (((h.2.2.2.2 (by decide)).1 (by decide)).1 rfl), h.1⟩

/-! ## Packer lemmas for C6 -/

theorem alignFloats_pos (t : GpuArgType) : 0 < alignFloats t := by
  cases t <;> decide

theorem padToMultiple_length_mod {a : Nat} (ha : 0 < a) (buf : List ℚ) :
    (padToMultiple a buf).length % a = 0 := by
  unfold padToMultiple
  rw [List.length_append, List.length_replicate]
  rcases Nat.eq_zero_or_pos (buf.length % a) with h0 | hpos
  · rw [h0, Nat.sub_zero, Nat.mod_self, Nat.add_zero]
    exact h0
  · have hmod : buf.length % a < a := Nat.mod_lt _ ha
    have hlt : a - buf.length % a < a := by omega
    rw [Nat.mod_eq_of_lt hlt, Nat.add_mod, Nat.mod_eq_of_lt hlt]
    have : buf.length % a + (a - buf.length % a) = a := by omega
    rw [this, Nat.mod_self]

theorem append_pad_assoc (A v : List ℚ) (a : Nat) :
    padToMultiple a (A ++ v)
      = A ++ (v ++ List.replicate ((a - (A ++ v).length % a) % a) 0) := by
  unfold padToMultiple
  rw [List.append_assoc]

theorem writeField_eq (buf : List ℚ) (f : GpuArgField) :
    ∃ tail : List ℚ,
      writeField buf f
        = padToMultiple (alignFloats f.type) buf ++ (baseFloats f.value ++ tail) := by
  unfold writeField
  by_cases h3 : f.type = GpuArgType.vec3
  · simp only [h3, if_true]
    rw [if_neg (by simp [isMatType])]
    exact ⟨_, append_pad_assoc _ _ _⟩
  · by_cases hm : isMatType f.type = true
    · simp only [h3, if_false, hm, if_true]
      exact ⟨_, append_pad_assoc _ _ _⟩
    · simp only [h3, if_false, hm, Bool.false_eq_true, if_false]
      exact ⟨[], by rw [List.append_nil]⟩

theorem foldl_writeField_extends (l : List GpuArgField) :
    ∀ buf : List ℚ, ∃ t : List ℚ, l.foldl writeField buf = buf ++ t := by
  induction l with
  | nil => intro buf; exact ⟨[], by simp⟩
  | cons f fs ih =>
      intro buf
      obtain ⟨t2, ht2⟩ := ih (writeField buf f)
      obtain ⟨t1, ht1⟩ := writeField_eq buf f
      refine ⟨List.replicate ((alignFloats f.type - buf.length % alignFloats f.type)
          % alignFloats f.type) 0 ++ (baseFloats f.value ++ t1) ++ t2, ?_⟩
      rw [List.foldl_cons, ht2, ht1]
      unfold padToMultiple
      simp [List.append_assoc]

theorem packFields_take_succ (schema : List GpuArgField) (i : Nat) (h : i < schema.length) :
    packFields (schema.take (i + 1))
      = writeField (packFields (schema.take i)) (schema.get ⟨i, h⟩) := by
  have h2 : schema.take (i + 1) = schema.take i ++ [schema.get ⟨i, h⟩] := by
    rw [List.take_succ, List.getElem?_eq_getElem h]
    rfl
  unfold packFields
  rw [h2, List.foldl_append]
  rfl

theorem packFields_decomp (schema : List GpuArgField) (i : Nat) :
    ∃ t : List ℚ, packFields schema = packFields (schema.take (i + 1)) ++ t := by
  have hsplit : packFields schema
      = (schema.take (i + 1) ++ schema.drop (i + 1)).foldl writeField [] := by
    rw [List.take_append_drop]
    rfl
  rw [hsplit, List.foldl_append]
  exact foldl_writeField_extends _ _

theorem writeField_post_aligned (buf : List ℚ) (f : GpuArgField)
    (h : f.type = GpuArgType.vec3 ∨ isMatType f.type = true) :
    (writeField buf f).length % 4 = 0 := by
  unfold writeField
  rcases h with h3 | hm
  · by_cases hmm : isMatType f.type = true
    · rw [h3] at hmm
      simp [isMatType] at hmm
    · simp only [h3, if_true, hmm, Bool.false_eq_true, if_false]
      exact padToMultiple_length_mod (by omega) _
  · have h3 : ¬ f.type = GpuArgType.vec3 := by
      intro hc
      rw [hc] at hm
      simp [isMatType] at hm
    simp only [h3, if_false, hm, if_true]
    exact padToMultiple_length_mod (by omega) _

theorem writeField_type_value (buf : List ℚ) (f g : GpuArgField)
    (ht : f.type = g.type) (hv : f.value = g.value) :
    writeField buf f = writeField buf g := by
  cases f
  cases g
  simp only at ht hv
  rw [ht, hv]
  rfl

theorem packFields_name_free : ∀ (s1 s2 : List GpuArgField) (buf : List ℚ),
    s1.map (fun f => (f.type, f.value)) = s2.map (fun f => (f.type, f.value)) →
    s1.foldl writeField buf = s2.foldl writeField buf := by
  intro s1
  induction s1 with
  | nil =>
      intro s2 buf h
      cases s2 with
      | nil => rfl
      | cons g gs => simp at h
  | cons f fs ih =>
      intro s2 buf h
      cases s2 with
      | nil => simp at h
      | cons g gs =>
          simp only [List.map_cons, List.cons.injEq, Prod.mk.injEq] at h
          rw [List.foldl_cons, List.foldl_cons,
            writeField_type_value buf f g h.1.1 h.1.2]
          exact ih gs _ h.2

/-- C6: createGpuArgumentBuffer pads the running float offset up to every
field's alignment before writing it (vec2 is aligned to 2 floats; vec3, vec4
and the matrix types all have alignments that are multiples of 4 floats),
writes the value floats at that padded offset, pads vec3 and matrix fields up
to a 4-float boundary after writing, rounds the total byte length up to the
least 16-byte multiple covering the packed data, and depends only on the
ordered sequence of (type, value) pairs in the schema. -/
theorem c6_argument_buffer_layout (schema : List GpuArgField) :
    ((createGpuArgumentBuffer schema).length * 4) % 16 = 0
    ∧ (packFields schema).length ≤ (createGpuArgumentBuffer schema).length
    ∧ (createGpuArgumentBuffer schema).length * 4 < (packFields schema).length * 4 + 16
    ∧ (∀ (i : Nat) (h : i < schema.length),
        startOffset schema ⟨i, h⟩ % alignFloats (schema.get ⟨i, h⟩).type = 0
        ∧ ((schema.get ⟨i, h⟩).type = GpuArgType.vec2 →
            alignFloats (schema.get ⟨i, h⟩).type = 2)
        ∧ ((schema.get ⟨i, h⟩).type = GpuArgType.vec3
            ∨ (schema.get ⟨i, h⟩).type = GpuArgType.vec4
            ∨ isMatType (schema.get ⟨i, h⟩).type = true →
            alignFloats (schema.get ⟨i, h⟩).type % 4 = 0)
        ∧ (∀ j : Nat, j < (baseFloats (schema.get ⟨i, h⟩).value).length →
            (createGpuArgumentBuffer schema)[startOffset schema ⟨i, h⟩ + j]?
              = (baseFloats (schema.get ⟨i, h⟩).value)[j]?)
        ∧ ((schema.get ⟨i, h⟩).type = GpuArgType.vec3
            ∨ isMatType (schema.get ⟨i, h⟩).type = true →
            (packFields (schema.take (i + 1))).length % 4 = 0))
    ∧ (∀ s2 : List GpuArgField,
        schema.map (fun f => (f.type, f.value)) = s2.map (fun f => (f.type, f.value)) →
        createGpuArgumentBuffer schema = createGpuArgumentBuffer s2) := by
  have hlen : (createGpuArgumentBuffer schema).length
      = (packFields schema).length
        + ((((packFields schema).length * 4 + 15) / 16) * 16 / 4
            - (packFields schema).length) := by
    unfold createGpuArgumentBuffer
    rw [List.length_append, List.length_replicate]
  refine ⟨?_, ?_, ?_, ?_, ?_⟩
  · rw [hlen]
    omega
  · rw [hlen]
    omega
  · rw [hlen]
    omega
  · intro i h
    have hpos : 0 < alignFloats (schema.get ⟨i, h⟩).type := alignFloats_pos _
    refine ⟨?_, ?_, ?_, ?_, ?_⟩
    · unfold startOffset
      exact padToMultiple_length_mod hpos _
    · intro hv
      rw [hv]
      rfl
    · intro hv
      rcases hv with hv | hv | hv
      · rw [hv]; rfl
      · rw [hv]; rfl
      · cases hty : (schema.get ⟨i, h⟩).type <;> rw [hty] at hv <;>
          first
            | rfl
            | (simp [isMatType] at hv)
    · intro j hj
      obtain ⟨t1, ht1⟩ := writeField_eq (packFields (schema.take i)) (schema.get ⟨i, h⟩)
      obtain ⟨t2, ht2⟩ := packFields_decomp schema i
      have hout : createGpuArgumentBuffer schema
          = padToMultiple (alignFloats (schema.get ⟨i, h⟩).type)
              (packFields (schema.take i))
            ++ (baseFloats (schema.get ⟨i, h⟩).value
              ++ (t1 ++ t2 ++ List.replicate
                    ((((packFields schema).length * 4 + 15) / 16) * 16 / 4
                      - (packFields schema).length) 0)) := by
        unfold createGpuArgumentBuffer
        rw [ht2, packFields_take_succ schema i h, ht1]
        simp [List.append_assoc]
      rw [hout]
      have hoff : startOffset schema ⟨i, h⟩
          = (padToMultiple (alignFloats (schema.get ⟨i, h⟩).type)
              (packFields (schema.take i))).length := rfl
      rw [hoff]
      rw [List.getElem?_append, if_neg (by omega)]
      have hidx : (padToMultiple (alignFloats (schema.get ⟨i, h⟩).type)
            (packFields (schema.take i))).length + j
          - (padToMultiple (alignFloats (schema.get ⟨i, h⟩).type)
              (packFields (schema.take i))).length = j := by omega
      rw [hidx, List.getElem?_append, if_pos hj]
    · intro hv
      rw [packFields_take_succ schema i h]
      exact writeField_post_aligned _ _ hv
  · intro s2 hmap
    have hpack : packFields schema = packFields s2 := packFields_name_free schema s2 [] hmap
    unfold createGpuArgumentBuffer
    rw [hpack]

/-- C6 witness: the vec3-then-float schema; field 0 is the vec3, whose second
float sits at offset 1, the post-vec3 boundary holds, and renaming fields
changes nothing. -/
theorem c6_argument_buffer_layout_witness :
    (0 < schemaC6.length ∧ 1 < (baseFloats (schemaC6.get ⟨0, by decide⟩).value).length
      ∧ (schemaC6.get ⟨0, by decide⟩).type = GpuArgType.vec3
      ∧ schemaC6.map (fun f => (f.type, f.value))
          = schemaC6renamed.map (fun f => (f.type, f.value)))
    ∧ ((createGpuArgumentBuffer schemaC6).length * 4) % 16 = 0
    ∧ startOffset schemaC6 ⟨0, by decide⟩ % alignFloats (schemaC6.get ⟨0, by decide⟩).type = 0
    ∧ (createGpuArgumentBuffer schemaC6)[startOffset schemaC6 ⟨0, by decide⟩ + 1]?
        = (baseFloats (schemaC6.get ⟨0, by decide⟩).value)[1]?
    ∧ (packFields (schemaC6.take (0 + 1))).length % 4 = 0
    ∧ createGpuArgumentBuffer schemaC6 = createGpuArgumentBuffer schemaC6renamed := by
  have h := c6_argument_buffer_layout schemaC6
  obtain ⟨hfield⟩ := And.intro (h.2.2.2.1 0 (by decide)) trivial
  exact ⟨⟨by decide, by decide, by decide, by decide⟩,
    h.1, hfield.1, hfield.2.2.2.1 1 (by decide),
    hfield.2.2.2.2 (Or.inl (by decide)),
    h.2.2.2.2 schemaC6renamed (by decide)⟩

/-! ## Single-pass resource safety (supporting C1)

The single-pass executor pushes every created buffer into its local buffers
array and the finally block destroys that whole array, so no exit path leaks;
this is the invariant the multi-pass executor breaks for its readback
buffer. -/

theorem destroyPure_created (b : Nat) (s : GpuRun) :
    (destroyPure b s).created = s.created := by
  unfold destroyPure
  split <;> rfl

theorem destroyPure_buffers (b : Nat) (s : GpuRun) :
    (destroyPure b s).buffers = s.buffers := by
  unfold destroyPure
  split <;> rfl

theorem destroyPure_mem_self (b : Nat) (s : GpuRun) :
    b ∈ (destroyPure b s).destroyed := by
  unfold destroyPure
  by_cases h : (s.destroyed.contains b) = true
  · rw [if_pos h]
    simpa using h
  · rw [if_neg h]
    simp

theorem destroyPure_destroyed_mono {x : Nat} {s : GpuRun} (b : Nat)
    (h : x ∈ s.destroyed) : x ∈ (destroyPure b s).destroyed := by
  unfold destroyPure
  split
  · exact h
  · simp [h]

theorem destroyList_created (bs : List Nat) :
    ∀ s : GpuRun, (destroyList bs s).created = s.created := by
  induction bs with
  | nil => intro s; rfl
  | cons b rest ih =>
      intro s
      show (destroyList rest (destroyPure b s)).created = s.created
      rw [ih, destroyPure_created]

theorem destroyList_buffers (bs : List Nat) :
    ∀ s : GpuRun, (destroyList bs s).buffers = s.buffers := by
  induction bs with
  | nil => intro s; rfl
  | cons b rest ih =>
      intro s
      show (destroyList rest (destroyPure b s)).buffers = s.buffers
      rw [ih, destroyPure_buffers]

theorem destroyList_destroyed_mono (bs : List Nat) :
    ∀ (s : GpuRun) (x : Nat), x ∈ s.destroyed → x ∈ (destroyList bs s).destroyed := by
  induction bs with
  | nil => intro s x h; exact h
  | cons b rest ih =>
      intro s x h
      exact ih (destroyPure b s) x (destroyPure_destroyed_mono b h)

theorem destroyList_mem (bs : List Nat) :
    ∀ (s : GpuRun) (b : Nat), b ∈ bs → b ∈ (destroyList bs s).destroyed := by
  induction bs with
  | nil => intro s b h; simp at h
  | cons c rest ih =>
      intro s b h
      rcases List.mem_cons.mp h with h | h
      · subst h
        exact destroyList_destroyed_mono rest (destroyPure b s) b (destroyPure_mem_self b s)
      · exact ih (destroyPure c s) b h

theorem lockstep_gpuPure {α : Type} (a : α) : BufLockstep (gpuPure a) := by
  intro s
  exact ⟨[], by simp [gpuPure], by simp [gpuPure]⟩

theorem lockstep_gpuThrow {α : Type} (e : JsErr) : BufLockstep (gpuThrow (α := α) e) := by
  intro s
  exact ⟨[], by simp [gpuThrow], by simp [gpuThrow]⟩

theorem lockstep_poll (env : GpuEnv) : BufLockstep (pollCancellation env) := by
  intro s
  refine ⟨[], ?_, ?_⟩ <;>
    by_cases h : cancelObserved env s.pollCount = true <;>
      simp [pollCancellation, h]

theorem lockstep_createBufferS : BufLockstep createBufferS := by
  intro s
  exact ⟨[s.nextBuf], rfl, rfl⟩

theorem lockstep_safeDestroyB (b : Nat) : BufLockstep (safeDestroyB b) := by
  intro s
  exact ⟨[], by simp [safeDestroyB, destroyPure_created],
    by simp [safeDestroyB, destroyPure_buffers]⟩

theorem lockstep_earlyDestroy (rb : Nat) : BufLockstep (earlyDestroyExceptS rb) := by
  intro s
  exact ⟨[], by simp [earlyDestroyExceptS, destroyList_created],
    by simp [earlyDestroyExceptS, destroyList_buffers]⟩

theorem lockstep_bind {α β : Type} {m : GpuM α} {f : α → GpuM β}
    (hm : BufLockstep m) (hf : ∀ a, BufLockstep (f a)) : BufLockstep (gpuBind m f) := by
  intro s
  obtain ⟨d1, hc1, hb1⟩ := hm s
  rcases hms : m s with ⟨r, s1⟩
  rw [hms] at hc1 hb1
  cases r with
  | ok a =>
      have hc1a : s1.created = s.created ++ d1 := hc1
      have hb1a : s1.buffers = s.buffers ++ d1 := hb1
      obtain ⟨d2, hc2, hb2⟩ := hf a s1
      refine ⟨d1 ++ d2, ?_, ?_⟩ <;>
        · show _ = _
          rw [gpuBind_apply, hms]
          simp only [hc2, hb2, hc1a, hb1a, List.append_assoc]
  | error e =>
      have hc1a : s1.created = s.created ++ d1 := hc1
      have hb1a : s1.buffers = s.buffers ++ d1 := hb1
      refine ⟨d1, ?_, ?_⟩ <;>
        · show _ = _
          rw [gpuBind_apply, hms]
          simp only [hc1a, hb1a]

theorem lockstep_ite {α : Type} (c : Prop) [Decidable c] {m1 m2 : GpuM α}
    (h1 : BufLockstep m1) (h2 : BufLockstep m2) : BufLockstep (if c then m1 else m2) := by
  split
  · exact h1
  · exact h2

theorem lockstep_inputs : ∀ n : Nat, BufLockstep (createInputBuffersS n) := by
  intro n
  induction n with
  | zero => exact lockstep_gpuPure ()
  | succ k ih =>
      exact lockstep_bind lockstep_createBufferS (fun _ => ih)

theorem lockstep_body (env : GpuEnv) (cfg : GpuConfig) :
    BufLockstep (runSinglePassBody env cfg) := by
  unfold runSinglePassBody
  refine lockstep_bind (lockstep_inputs _) (fun _ => ?_)
  refine lockstep_bind lockstep_createBufferS (fun _ => ?_)
  refine lockstep_bind (lockstep_ite _
    (lockstep_bind lockstep_createBufferS (fun _ => lockstep_gpuPure ()))
    (lockstep_gpuPure ())) (fun _ => ?_)
  refine lockstep_bind (lockstep_ite _
    (lockstep_bind lockstep_createBufferS (fun _ => lockstep_gpuPure ()))
    (lockstep_gpuPure ())) (fun _ => ?_)
  refine lockstep_bind (lockstep_poll env) (fun _ => ?_)
  refine lockstep_bind lockstep_createBufferS (fun rb => ?_)
  refine lockstep_bind (lockstep_earlyDestroy rb) (fun _ => ?_)
  refine lockstep_bind (lockstep_ite _ (lockstep_gpuThrow _) (lockstep_gpuPure ())) (fun _ => ?_)
  refine lockstep_bind (lockstep_poll env) (fun _ => ?_)
  refine lockstep_bind (lockstep_safeDestroyB rb) (fun _ => ?_)
  exact lockstep_ite _ (lockstep_gpuThrow _) (lockstep_gpuPure ())

/-- Supporting theorem for C1: the single-pass executor destroys every buffer
it created, on every exit path — normal return, WebGPU/adapter failure,
cancellation observed at any poll, mapAsync rejection or deserializer
throw. -/
theorem singlePass_no_buffer_leak (env : GpuEnv) (cfg : GpuConfig) :
    ∀ b ∈ (runSinglePass env cfg gpuRunInitial).snd.created,
      b ∈ (runSinglePass env cfg gpuRunInitial).snd.destroyed := by
  intro b hb
  rcases acquireDevice_cases env gpuRunInitial with ⟨e, k, heq⟩ | ⟨k, heq⟩
  · have hrun : runSinglePass env cfg gpuRunInitial
        = (Except.error e, { gpuRunInitial with pollCount := k }) := by
      unfold runSinglePass
      rw [gpuBind_apply, heq]
    rw [hrun] at hb
    simp [gpuRunInitial] at hb
  · have hrun : runSinglePass env cfg gpuRunInitial
        = withCleanupS (runSinglePassBody env cfg) { gpuRunInitial with pollCount := k } := by
      unfold runSinglePass
      rw [gpuBind_apply, heq]
    obtain ⟨d, hc, hbuf⟩ := lockstep_body env cfg { gpuRunInitial with pollCount := k }
    have hfin : (withCleanupS (runSinglePassBody env cfg)
          { gpuRunInitial with pollCount := k }).snd
        = destroyList
            (runSinglePassBody env cfg { gpuRunInitial with pollCount := k }).snd.buffers
            (runSinglePassBody env cfg { gpuRunInitial with pollCount := k }).snd := rfl
    rw [hrun, hfin] at hb ⊢
    rw [destroyList_created, hc] at hb
    apply destroyList_mem
    rw [hbuf]
    have hbd : b ∈ d := by simpa [gpuRunInitial] using hb
    simpa [gpuRunInitial] using hbd
